import Mathlib

/-!
Shallow embedding of the data-processing repository's CSV converters
(Kraken, Crypto.com, Nexo) together with proofs about the claims made in
the specification.

Modelling conventions:
  * a CSV row is a `List String`; Go's `row[i]` is modelled with `List.get?`
    (an out-of-range access becomes `RunResult.panic`, matching a Go
    runtime panic);
  * Go maps keyed by strings are association lists; `alFind`, `alInsert`
    (update-or-append) and `alErase` give the map operations, which are
    deterministic; map *iteration* order, which Go randomises, is made an
    explicit parameter wherever the source ranges over a map;
  * `fmt.Printf` diagnostics become values of the inductive type `Diag`
    (one constructor per print site, carrying the formatted arguments);
  * `log.Fatalf` / `os.Exit` become `RunResult.fatal`;
  * the historical-price collaborator and the timezone conversion are
    pure-function parameters (`price`, `uk`): for a fixed cache and
    timezone database both are fixed functions;
  * machine integers are modelled as `Int`; the values concerned (pence
    amounts of personal transactions) are far below 2^63, so Go overflow
    does not occur and is not modelled.
-/

namespace DataProc

/-- One row of CSV data: an ordered list of field values. -/
abbrev Row := List String

/-- Association-list lookup, modelling a Go map read `v, ok := m[k]`. -/
def alFind {α : Type} (m : List (String × α)) (k : String) : Option α :=
  match m.find? (fun p => p.1 == k) with
  | some p => some p.2
  | none => none

/-- Association-list write, modelling a Go map write `m[k] = v`
(update the existing entry if present, otherwise append). -/
def alInsert {α : Type} (m : List (String × α)) (k : String) (v : α) :
    List (String × α) :=
  match m with
  | [] => [(k, v)]
  | p :: rest => if p.1 == k then (k, v) :: rest else p :: alInsert rest k v

/-- Association-list removal, modelling Go `delete(m, k)`. -/
def alErase {α : Type} (m : List (String × α)) (k : String) :
    List (String × α) :=
  m.filter (fun p => !(p.1 == k))

/-- Modelling `output[k] = append(output[k], v)` on the per-currency
output map: append `v` to the list stored under `k`, creating the entry
if needed. -/
def outAppend (m : List (String × List Row)) (k : String) (v : Row) :
    List (String × List Row) :=
  match m with
  | [] => [(k, [v])]
  | p :: rest => if p.1 == k then (p.1, p.2 ++ [v]) :: rest else p :: outAppend rest k v

/-- All records held in a per-currency output map, in stored order. -/
def outRecords (m : List (String × List Row)) : List Row :=
  (m.map Prod.snd).flatten

/-- The first `n` characters of a string (`String.take`, restated over
the character list so that it evaluates inside the kernel). -/
def strTake (s : String) (n : Nat) : String := String.mk (s.data.take n)

/-- Whether `suf` is a suffix of `s` (`String.endsWith`, restated over
the character lists so that it evaluates inside the kernel). -/
def strEndsWith (s suf : String) : Bool := suf.data.isSuffixOf s.data

/-- Go `strings.Split(s, ".")`: split at every dot; a string without a
dot yields a one-element list, and empty pieces are kept. -/
def splitOnDot (s : String) : List String :=
  let rec go : List Char → List Char → List String
    | [], acc => [String.mk acc.reverse]
    | c :: rest, acc =>
      if c = '.' then String.mk acc.reverse :: go rest [] else go rest (c :: acc)
  go s.data []

/-- Go `strings.TrimLeft(s, "-")`: drop every leading minus sign. -/
def trimLeftMinus (s : String) : String :=
  String.mk (s.data.dropWhile (fun c => c == '-'))

/-- Go `strings.TrimSuffix(s, suf)`: remove one trailing occurrence. -/
def trimSuffix (s suf : String) : String :=
  if strEndsWith s suf then String.mk (s.data.take (s.data.length - suf.data.length))
  else s

/-- Decimal value of a digit character. -/
def digitVal (c : Char) : Nat := c.toNat - 48

/-- Value of a digit string read in base 10. -/
def digitsVal (l : List Char) : Nat :=
  l.foldl (fun acc c => acc * 10 + digitVal c) 0

/-- Go `strconv.Atoi`: optional sign then decimal digits; anything else
is an error (`none`).  64-bit overflow is not modelled (see header). -/
def goAtoiCore (l : List Char) : Option Nat :=
  if l = [] then none
  else if l.all Char.isDigit then some (digitsVal l) else none

def goAtoi (s : String) : Option Int :=
  match s.data with
  | [] => none
  | c :: rest =>
    if c = '-' then (goAtoiCore rest).map (fun n => -(n : Int))
    else if c = '+' then (goAtoiCore rest).map (fun n => (n : Int))
    else (goAtoiCore (c :: rest)).map (fun n => (n : Int))

/-- Left-pad a string with zeros to width 2 after truncating it to (at
most) its first two characters: Go `fmt.Sprintf("%02.02s", s)` (the `0`
flag pads strings with zeros in Go). -/
def pad2trunc2 (s : String) : String :=
  let t := strTake s 2
  if t.length < 2 then String.mk (List.replicate (2 - t.length) '0') ++ t else t

set_option maxHeartbeats 1000000 in
/-- Diagnostic messages: one constructor per `fmt.Printf` site that the
embedding models, carrying the data interpolated at that site. -/
inductive Diag where
  | repeatedStakedDepositRefid (refid : String) (prevRow : Nat)
  | tokenDepositNoPrep (row : Nat)
  | tokenDepositMismatch (prevRow row : Nat)
  | repeatedSpendRefid (refid : String) (prevRow : Nat)
  | spendMissingFields (row : Nat)
  | receiveNoMatchingSpend (row : Nat)
  | receiveMissingFields (row : Nat)
  | spendMissingFieldsAtReceive (row : Nat)
  | nonGbpSpend (asset : String) (row : Nat)
  | withdrawalMismatch (row prevRow : Nat)
  | transferNoMatchingWithdrawal (row : Nat)
  | transferWithdrawalMismatch (row prevRow : Nat)
  | stakingFromSpotNoDeposit (row : Nat)
  | spotFromFuturesNoDeposit (row : Nat)
  | invalidTransferSubtype (subtype : String) (row : Nat)
  | stakingAssetWithoutSuffix (row : Nat) (asset : String)
  | noDepositForStaking (row : Nat)
  | invalidEmptyEntry (row : Nat)
  | invalidAclass (row : Nat)
  | unrecognisedFormat (format : String)
  | unhandledTransactionType (row : Nat) (format : String)
  | tooManyDecimalSeparators (s : String)
  | atoiFailed (s : String)
  | sliceDiffLen (la lb : Nat)
  | sliceMismatch (i : Nat) (a b : String)
  | firstRowFailsToMatch
  | priceLookupFailed (token date : String)
  | unmatchedSpend (row : Nat)
  | unmatchedWithdrawal (row : Nat)
  | unmatchedStakingDeposit (row : Nat)
  | failedToFindTranslatedData (c orig : String)
  | badValueSeen (site : String)
  | cdcExpectedCurrency (row : Nat) (expected actual : String)
  | cdcExpectedNativeCurrency (row : Nat) (expected actual : String)
  | cdcExpectedKind (row : Nat) (expected actual : String)
  | cdcToCurrencyNotBlank (row : Nat) (v : String)
  | cdcToAmountNotBlank (row : Nat) (v : String)
  | cdcDebugExchange (t : String)
  | cdcUnrecognised (description : String)
  | nexoCheck (site txid : String)
  | nexoUnhandledSwitchOption (t : String)
  | nexoNoMatchingExchangeToWithdraw (txid : String)
  | nexoNonMatchingExchangeToWithdraw (txid matchTxid : String)
  | nexoLeftoverFifo
  | nexoTooFewRows (n : Nat)
  | nexoHeaderExpected (expected : List String)
  | nexoHeaderActual (actual : List String)
  | nexoHeaderLengths (expected actual : Nat)
  | nexoHeaderMismatchAt (i : Nat) (actual expected : String)
  | nexoHeaderMatchAt (i : Nat)
  | nexoHeaderFatal
deriving Repr

/-- Injective packaging of a diagnostic: constructor tag, string
payloads and numeric payloads.  Equality of diagnostics is decided
through this encoding (the instance a `deriving` clause would build for
a 51-constructor type is one enormous match). -/
def Diag.enc : Diag → Nat × List String × List Nat
  | .repeatedStakedDepositRefid r p => (0, [r], [p])
  | .tokenDepositNoPrep row => (1, [], [row])
  | .tokenDepositMismatch p row => (2, [], [p, row])
  | .repeatedSpendRefid r p => (3, [r], [p])
  | .spendMissingFields row => (4, [], [row])
  | .receiveNoMatchingSpend row => (5, [], [row])
  | .receiveMissingFields row => (6, [], [row])
  | .spendMissingFieldsAtReceive row => (7, [], [row])
  | .nonGbpSpend a row => (8, [a], [row])
  | .withdrawalMismatch row p => (9, [], [row, p])
  | .transferNoMatchingWithdrawal row => (10, [], [row])
  | .transferWithdrawalMismatch row p => (11, [], [row, p])
  | .stakingFromSpotNoDeposit row => (12, [], [row])
  | .spotFromFuturesNoDeposit row => (13, [], [row])
  | .invalidTransferSubtype sub row => (14, [sub], [row])
  | .stakingAssetWithoutSuffix row a => (15, [a], [row])
  | .noDepositForStaking row => (16, [], [row])
  | .invalidEmptyEntry row => (17, [], [row])
  | .invalidAclass row => (18, [], [row])
  | .unrecognisedFormat f => (19, [f], [])
  | .unhandledTransactionType row f => (20, [f], [row])
  | .tooManyDecimalSeparators s => (21, [s], [])
  | .atoiFailed s => (22, [s], [])
  | .sliceDiffLen la lb => (23, [], [la, lb])
  | .sliceMismatch i a b => (24, [a, b], [i])
  | .firstRowFailsToMatch => (25, [], [])
  | .priceLookupFailed tok date => (26, [tok, date], [])
  | .unmatchedSpend row => (27, [], [row])
  | .unmatchedWithdrawal row => (28, [], [row])
  | .unmatchedStakingDeposit row => (29, [], [row])
  | .failedToFindTranslatedData c orig => (30, [c, orig], [])
  | .badValueSeen site => (31, [site], [])
  | .cdcExpectedCurrency row e a => (32, [e, a], [row])
  | .cdcExpectedNativeCurrency row e a => (33, [e, a], [row])
  | .cdcExpectedKind row e a => (34, [e, a], [row])
  | .cdcToCurrencyNotBlank row v => (35, [v], [row])
  | .cdcToAmountNotBlank row v => (36, [v], [row])
  | .cdcDebugExchange t => (37, [t], [])
  | .cdcUnrecognised d => (38, [d], [])
  | .nexoCheck site txid => (39, [site, txid], [])
  | .nexoUnhandledSwitchOption t => (40, [t], [])
  | .nexoNoMatchingExchangeToWithdraw txid => (41, [txid], [])
  | .nexoNonMatchingExchangeToWithdraw txid m => (42, [txid, m], [])
  | .nexoLeftoverFifo => (43, [], [])
  | .nexoTooFewRows n => (44, [], [n])
  | .nexoHeaderExpected e => (45, e, [])
  | .nexoHeaderActual a => (46, a, [])
  | .nexoHeaderLengths e a => (47, [], [e, a])
  | .nexoHeaderMismatchAt i a e => (48, [a, e], [i])
  | .nexoHeaderMatchAt i => (49, [], [i])
  | .nexoHeaderFatal => (50, [], [])

/-- Partial inverse of `Diag.enc`. -/
def Diag.dec : Nat × List String × List Nat → Option Diag
  | (0, [r], [p]) => some (.repeatedStakedDepositRefid r p)
  | (1, [], [row]) => some (.tokenDepositNoPrep row)
  | (2, [], [p, row]) => some (.tokenDepositMismatch p row)
  | (3, [r], [p]) => some (.repeatedSpendRefid r p)
  | (4, [], [row]) => some (.spendMissingFields row)
  | (5, [], [row]) => some (.receiveNoMatchingSpend row)
  | (6, [], [row]) => some (.receiveMissingFields row)
  | (7, [], [row]) => some (.spendMissingFieldsAtReceive row)
  | (8, [a], [row]) => some (.nonGbpSpend a row)
  | (9, [], [row, p]) => some (.withdrawalMismatch row p)
  | (10, [], [row]) => some (.transferNoMatchingWithdrawal row)
  | (11, [], [row, p]) => some (.transferWithdrawalMismatch row p)
  | (12, [], [row]) => some (.stakingFromSpotNoDeposit row)
  | (13, [], [row]) => some (.spotFromFuturesNoDeposit row)
  | (14, [sub], [row]) => some (.invalidTransferSubtype sub row)
  | (15, [a], [row]) => some (.stakingAssetWithoutSuffix row a)
  | (16, [], [row]) => some (.noDepositForStaking row)
  | (17, [], [row]) => some (.invalidEmptyEntry row)
  | (18, [], [row]) => some (.invalidAclass row)
  | (19, [f], []) => some (.unrecognisedFormat f)
  | (20, [f], [row]) => some (.unhandledTransactionType row f)
  | (21, [s], []) => some (.tooManyDecimalSeparators s)
  | (22, [s], []) => some (.atoiFailed s)
  | (23, [], [la, lb]) => some (.sliceDiffLen la lb)
  | (24, [a, b], [i]) => some (.sliceMismatch i a b)
  | (25, [], []) => some .firstRowFailsToMatch
  | (26, [tok, date], []) => some (.priceLookupFailed tok date)
  | (27, [], [row]) => some (.unmatchedSpend row)
  | (28, [], [row]) => some (.unmatchedWithdrawal row)
  | (29, [], [row]) => some (.unmatchedStakingDeposit row)
  | (30, [c, orig], []) => some (.failedToFindTranslatedData c orig)
  | (31, [site], []) => some (.badValueSeen site)
  | (32, [e, a], [row]) => some (.cdcExpectedCurrency row e a)
  | (33, [e, a], [row]) => some (.cdcExpectedNativeCurrency row e a)
  | (34, [e, a], [row]) => some (.cdcExpectedKind row e a)
  | (35, [v], [row]) => some (.cdcToCurrencyNotBlank row v)
  | (36, [v], [row]) => some (.cdcToAmountNotBlank row v)
  | (37, [t], []) => some (.cdcDebugExchange t)
  | (38, [d], []) => some (.cdcUnrecognised d)
  | (39, [site, txid], []) => some (.nexoCheck site txid)
  | (40, [t], []) => some (.nexoUnhandledSwitchOption t)
  | (41, [txid], []) => some (.nexoNoMatchingExchangeToWithdraw txid)
  | (42, [txid, m], []) => some (.nexoNonMatchingExchangeToWithdraw txid m)
  | (43, [], []) => some .nexoLeftoverFifo
  | (44, [], [n]) => some (.nexoTooFewRows n)
  | (45, e, []) => some (.nexoHeaderExpected e)
  | (46, a, []) => some (.nexoHeaderActual a)
  | (47, [], [e, a]) => some (.nexoHeaderLengths e a)
  | (48, [a, e], [i]) => some (.nexoHeaderMismatchAt i a e)
  | (49, [], [i]) => some (.nexoHeaderMatchAt i)
  | (50, [], []) => some .nexoHeaderFatal
  | _ => none

/-- `Diag.dec` undoes `Diag.enc`. -/
theorem Diag.dec_enc : ∀ d : Diag, Diag.dec (Diag.enc d) = some d := by
  intro d
  cases d <;> rfl

/-- `Diag.enc` is injective. -/
theorem Diag.enc_inj {a b : Diag} (h : Diag.enc a = Diag.enc b) : a = b := by
  have h1 : some a = some b := by
    rw [← Diag.dec_enc a, ← Diag.dec_enc b, h]
  exact Option.some.inj h1

instance : DecidableEq Diag := fun a b =>
  if h : Diag.enc a = Diag.enc b then
    Decidable.isTrue (Diag.enc_inj h)
  else
    Decidable.isFalse (fun he => h (congrArg Diag.enc he))

/-- Outcome of running a piece of the converter: normal completion,
`log.Fatalf`-style abort carrying the fatal diagnostic, or a Go runtime
panic (out-of-range index). -/
inductive RunResult (α : Type) where
  | ok : α → RunResult α
  | fatal : Diag → RunResult α
  | panic : RunResult α
deriving Repr, DecidableEq

instance : Monad RunResult where
  pure := RunResult.ok
  bind := fun x f =>
    match x with
    | RunResult.ok a => f a
    | RunResult.fatal d => RunResult.fatal d
    | RunResult.panic => RunResult.panic

/-- Go `row[i]` on a CSV row: a missing field is a runtime panic. -/
def getF (r : Row) (i : Nat) : RunResult String :=
  match r.get? i with
  | some v => RunResult.ok v
  | none => RunResult.panic

/-- Go `s[0]` on a string: byte zero of the string (all strings indexed
this way by the converters hold ASCII), a panic when the string is
empty. -/
def firstCharR (s : String) : RunResult Char :=
  match s.data.head? with
  | some c => RunResult.ok c
  | none => RunResult.panic

/-- Drop the first `n` characters: Go `s[n:]` on ASCII strings. -/
def strDrop (s : String) (n : Nat) : String := String.mk (s.data.drop n)

/-- Whether `pat` is a prefix of `s` (`strings.HasPrefix`). -/
def strStartsWith (s pat : String) : Bool := pat.data.isPrefixOf s.data

/-- Whether `pat` occurs inside `s` (`strings.Contains`). -/
def strContainsSub (s pat : String) : Bool :=
  (List.range (s.data.length + 1)).any (fun i => pat.data.isPrefixOf (s.data.drop i))

/-- Go `strings.Fields`: split on runs of whitespace, keeping only the
non-empty pieces (the descriptions concerned use plain spaces). -/
def goFields (s : String) : List String :=
  let rec go : List Char → List Char → List String
    | [], acc => if acc = [] then [] else [String.mk acc.reverse]
    | c :: rest, acc =>
      if c = ' ' ∨ c = '\t' ∨ c = '\n' then
        (if acc = [] then go rest [] else String.mk acc.reverse :: go rest [])
      else go rest (c :: acc)
  go s.data []

/-- `testSlicesEqual`, duplicated verbatim in convert-kraken.go,
convert-cdc.go and convert-nexo.go: exact equality of two string
slices.  Returns the boolean verdict together with the diagnostics the
function prints; the source returns at the FIRST difference, so at most
one diagnostic is ever produced. -/
def testSlicesEqual (a b : List String) : Bool × List Diag :=
  if a.length ≠ b.length then (false, [Diag.sliceDiffLen a.length b.length])
  else
    let rec go : Nat → List String → List String → Bool × List Diag
      | _, [], _ => (true, [])
      | _, _ :: _, [] => (true, [])
      | i, x :: xs, y :: ys =>
        if x ≠ y then (false, [Diag.sliceMismatch i x y]) else go (i + 1) xs ys
    go 0 a b

namespace Kraken

/-- The `ledger` struct of convert-kraken.go (pre-wallet-column format). -/
structure Ledger where
  row : Nat
  txid : String
  refid : String
  time : String
  format : String
  subtype : String
  aclass : String
  asset : String
  amount : String
  fee : String
  balance : String
deriving Repr, DecidableEq

/-- The Go zero value of the `ledger` struct (used when a map lookup in
a two-valued assignment misses). -/
def zeroLedger : Ledger :=
  { row := 0, txid := "", refid := "", time := "", format := "", subtype := ""
    aclass := "", asset := "", amount := "", fee := "", balance := "" }

/-- The mutable state of `convertTransactions`: the per-currency output
map, the four pending-match maps, and the diagnostics printed so far. -/
structure St where
  output : List (String × List Row)
  pendingSpends : List (String × Ledger)
  pendingWithdrawals : List (String × Ledger)
  pendingStakingDeposits : List (String × Ledger)
  pendingTokenDeposits : List (String × Ledger)
  diags : List Diag
deriving Repr, DecidableEq

/-- The initial (all-empty) conversion state. -/
def St.init : St :=
  { output := [], pendingSpends := [], pendingWithdrawals := []
    pendingStakingDeposits := [], pendingTokenDeposits := [], diags := [] }

/-- `isFiatCurrency` of convert-kraken.go: the fiat allow-list. -/
def isFiatCurrency (currency : String) : Bool :=
  currency == "ZGBP" || currency == "ZEUR" || currency == "EUR.HOLD"

/-- `areRowValuesAcceptable` of convert-kraken.go: required fields must
be non-empty and `aclass` must be `currency`.  Returns the verdict and
the printed diagnostics. -/
def areRowValuesAcceptable (e : Ledger) : Bool × List Diag :=
  let emptyBad := e.refid = "" ∨ e.time = "" ∨ e.format = "" ∨ e.asset = "" ∨
    e.amount = "" ∨ e.fee = ""
  let d1 : List Diag := if emptyBad then [Diag.invalidEmptyEntry e.row] else []
  let aclassBad := e.aclass ≠ "currency"
  let d2 : List Diag := if aclassBad then [Diag.invalidAclass e.row] else []
  (!(decide emptyBad) && !(decide aclassBad), d1 ++ d2)

/-- `makePenniesFromGBP` of convert-kraken.go: split at the decimal
point, parse pounds with `Atoi` (an error exits the process), normalise
the pennies digits to exactly two (pad a short field with a trailing
zero, truncate a long one), parse pennies with `Atoi` (an error only
prints; Go then continues with `pennies = 0`). -/
def makePenniesFromGBP (currency : String) : RunResult (Int × List Diag) :=
  let result := splitOnDot currency
  let poundsString := if result.headD "" = "" then "0" else result.headD ""
  let penniesString := if result.length = 2 then result.getD 1 "" else "00"
  let d1 : List Diag :=
    if result.length > 2 then [Diag.tooManyDecimalSeparators currency] else []
  match goAtoi poundsString with
  | none => RunResult.fatal (Diag.atoiFailed poundsString)
  | some pounds =>
    let penniesString :=
      if penniesString.length = 0 then "00"
      else if penniesString.length = 1 then penniesString ++ "0"
      else if penniesString.length > 2 then strTake penniesString 2
      else penniesString
    match goAtoi penniesString with
    | none => RunResult.ok (pounds * 100 + 0, d1 ++ [Diag.atoiFailed penniesString])
    | some pennies => RunResult.ok (pounds * 100 + pennies, d1)

/-- `calculateSpendAsString` of convert-kraken.go: total spend of a
"spend" ledger entry as pounds.pennies text, adding the absolute values
of the amount and the fee in integer pennies. -/
def calculateSpendAsString (spend : Ledger) : RunResult (String × List Diag) :=
  let spendAmount := trimLeftMinus spend.amount
  let spendFee := trimLeftMinus spend.fee
  match makePenniesFromGBP spendAmount with
  | RunResult.fatal d => RunResult.fatal d
  | RunResult.panic => RunResult.panic
  | RunResult.ok (amountPennies, d1) =>
    match makePenniesFromGBP spendFee with
    | RunResult.fatal d => RunResult.fatal d
    | RunResult.panic => RunResult.panic
    | RunResult.ok (feePennies, d2) =>
      let totalPennies := amountPennies + feePennies
      let finalPounds := totalPennies / 100
      let finalPennies := totalPennies - finalPounds * 100
      RunResult.ok (toString finalPounds ++ "." ++ pad2trunc2 (toString finalPennies), d1 ++ d2)

/-- The "deposit" case of the `convertTransactions` switch. -/
def depositCase (uk : String → String) (e : Ledger) (rowOK : Bool) (s : St) : St :=
  if isFiatCurrency e.asset then s
  else if strEndsWith e.asset ".S" then
    let ds : List Diag :=
      match alFind s.pendingStakingDeposits e.refid with
      | some prev => [Diag.repeatedStakedDepositRefid e.refid prev.row]
      | none => []
    { s with pendingStakingDeposits := alInsert s.pendingStakingDeposits e.refid e,
             diags := s.diags ++ ds }
  else
    if rowOK &&
        !((e.txid == "" && e.balance != "") || (e.txid != "" && e.balance == "")) then
      if e.txid == "" && e.balance == "" then
        { s with pendingTokenDeposits := alInsert s.pendingTokenDeposits e.refid e }
      else
        match alFind s.pendingTokenDeposits e.refid with
        | none => { s with diags := s.diags ++ [Diag.tokenDepositNoPrep e.row] }
        | some prev =>
          if e.asset ≠ prev.asset ∨ e.amount ≠ prev.amount ∨ e.fee ≠ prev.fee then
            { s with diags := s.diags ++ [Diag.tokenDepositMismatch prev.row e.row] }
          else
            let record := ["", "Kraken", e.time, uk e.time, e.amount,
              "", "", "", "", "", "", "", "", "TRANSFER-IN"]
            { s with output := outAppend s.output e.asset record }
    else
      let record := ["**BAD DATA", "Kraken", e.time, uk e.time, e.amount,
        "", "", "", "", "", "", "", "", "TRANSFER-IN **BAD DATA"]
      { s with output := outAppend s.output e.asset record }

/-- The "spend" case of the `convertTransactions` switch. -/
def spendCase (e : Ledger) (s : St) : St :=
  let d1 : List Diag :=
    match alFind s.pendingSpends e.refid with
    | some prev => [Diag.repeatedSpendRefid e.refid prev.row]
    | none => []
  let d2 : List Diag :=
    if e.txid = "" ∨ e.subtype ≠ "" ∨ e.balance = "" then
      [Diag.spendMissingFields e.row]
    else []
  { s with pendingSpends := alInsert s.pendingSpends e.refid e,
           diags := s.diags ++ d1 ++ d2 }

/-- The "receive" case of the `convertTransactions` switch.  When no
pending spend matches the reference id the source only prints a
diagnostic: the whole emission block sits in the `else` of the found
check, so nothing is emitted and the pending-spends map is unchanged. -/
def receiveCase (uk : String → String) (e : Ledger) (s : St) : RunResult St :=
  match alFind s.pendingSpends e.refid with
  | none =>
    RunResult.ok { s with diags := s.diags ++ [Diag.receiveNoMatchingSpend e.row] }
  | some spend =>
    match calculateSpendAsString spend with
    | RunResult.fatal d => RunResult.fatal d
    | RunResult.panic => RunResult.panic
    | RunResult.ok (totalSpend, calcDiags) =>
      let entryBad := e.txid = "" ∨ e.subtype ≠ "" ∨ e.balance = ""
      let d2 : List Diag := if entryBad then [Diag.receiveMissingFields e.row] else []
      let d3 : List Diag :=
        if spend.txid = "" ∨ spend.subtype ≠ "" ∨ spend.balance = "" then
          [Diag.spendMissingFieldsAtReceive e.row]
        else []
      let d4 : List Diag :=
        if spend.asset ≠ "ZGBP" then [Diag.nonGbpSpend spend.asset spend.row] else []
      let record :=
        if entryBad then
          ["**BAD DATA**", "Kraken", e.time, uk e.time, e.amount,
           "", "", "", totalSpend, "", "", "", "", "BUY **BAD DATA**"]
        else
          ["", "Kraken", e.time, uk e.time, e.amount,
           "", "", "", totalSpend, "", "", "", "", "BUY"]
      RunResult.ok
        { s with output := outAppend s.output e.asset record,
                 pendingSpends := alErase s.pendingSpends e.refid,
                 diags := s.diags ++ calcDiags ++ d2 ++ d3 ++ d4 }

/-- The "withdrawal" case of the `convertTransactions` switch. -/
def withdrawalCase (uk : String → String) (e : Ledger) (s : St) : St :=
  if e.txid = "" then
    { s with pendingWithdrawals := alInsert s.pendingWithdrawals e.refid e }
  else
    let found := (alFind s.pendingWithdrawals e.refid).isSome
    let withdrawal := (alFind s.pendingWithdrawals e.refid).getD zeroLedger
    let mismatch := e.amount ≠ withdrawal.amount ∨ e.fee ≠ withdrawal.fee ∨
      e.asset ≠ withdrawal.asset
    let valid := found ∧ ¬ mismatch
    let d : List Diag :=
      if mismatch then [Diag.withdrawalMismatch e.row withdrawal.row] else []
    let record :=
      if valid then
        ["", "Kraken", e.time, uk e.time, e.amount,
         "", "", "", "", "", "", "", "", "TRANSFER-OUT"]
      else
        ["**BAD DATA**", "Kraken", e.time, uk e.time, e.amount,
         "", "", "", "", "", "", "", "", "TRANSFER-OUT **BAD DATA**"]
    { s with output := outAppend s.output e.asset record,
             pendingWithdrawals := alErase s.pendingWithdrawals e.refid,
             diags := s.diags ++ d }

/-- The "transfer" case of the `convertTransactions` switch.  Never
emits output; it only closes pending entries and prints diagnostics. -/
def transferCase (e : Ledger) (s : St) : St :=
  if e.subtype = "spottostaking" then
    let found := (alFind s.pendingWithdrawals e.refid).isSome
    let withdrawal := (alFind s.pendingWithdrawals e.refid).getD zeroLedger
    let d : List Diag :=
      if ¬ found then [Diag.transferNoMatchingWithdrawal e.row]
      else if e.amount ≠ withdrawal.amount ∨ e.fee ≠ withdrawal.fee ∨
          e.asset ≠ withdrawal.asset then
        [Diag.transferWithdrawalMismatch e.row withdrawal.row]
      else []
    { s with pendingWithdrawals := alErase s.pendingWithdrawals e.refid,
             diags := s.diags ++ d }
  else if e.subtype = "stakingfromspot" then
    match alFind s.pendingStakingDeposits e.refid with
    | none => { s with diags := s.diags ++ [Diag.stakingFromSpotNoDeposit e.row] }
    | some _ =>
      { s with pendingStakingDeposits := alErase s.pendingStakingDeposits e.refid }
  else if e.subtype = "spotfromfutures" then
    match alFind s.pendingTokenDeposits e.refid with
    | none => { s with diags := s.diags ++ [Diag.spotFromFuturesNoDeposit e.row] }
    | some _ =>
      { s with pendingTokenDeposits := alErase s.pendingTokenDeposits e.refid }
  else
    { s with diags := s.diags ++ [Diag.invalidTransferSubtype e.subtype e.row] }

/-- The "staking" case of the `convertTransactions` switch.  The match
against a pending staking deposit ranges over the map, whose iteration
order Go randomises: `ord` supplies the order in which the entries are
visited.  Only the deletion (and a diagnostic) depend on it; the emitted
record does not. -/
def stakingCase (ord : List (String × Ledger) → List (String × Ledger))
    (price : String → String → Option String) (uk : String → String)
    (e : Ledger) (rowOK : Bool) (s : St) : RunResult St :=
  let d1 : List Diag :=
    if trimSuffix e.asset ".S" = e.asset then
      [Diag.stakingAssetWithoutSuffix e.row e.asset]
    else []
  let hit := (ord s.pendingStakingDeposits).find?
    (fun p => p.2.asset == e.asset && p.2.amount == e.amount && p.2.txid == "")
  let stakingMap :=
    match hit with
    | some p => alErase s.pendingStakingDeposits p.1
    | none => s.pendingStakingDeposits
  let d2 : List Diag := if hit.isSome then [] else [Diag.noDepositForStaking e.row]
  if (if trimSuffix e.asset ".S" = e.asset then false else rowOK) then
    match price (trimSuffix e.asset ".S") e.time with
    | none =>
      RunResult.fatal (Diag.priceLookupFailed (trimSuffix e.asset ".S") e.time)
    | some tokenValue =>
      let record := ["", "Kraken", e.time, uk e.time, e.amount, tokenValue,
        "", "", "", "", "", "", "", "STAKING"]
      RunResult.ok
        { s with output := outAppend s.output (trimSuffix e.asset ".S") record,
                 pendingStakingDeposits := stakingMap,
                 diags := s.diags ++ d1 ++ d2 }
  else
    let record := ["**BAD DATA**", "Kraken", e.time, uk e.time, e.amount,
      "", "", "", "", "", "", "", "", "STAKING **BAD DATA**"]
    RunResult.ok
      { s with output := outAppend s.output (trimSuffix e.asset ".S") record,
               pendingStakingDeposits := stakingMap,
               diags := s.diags ++ d1 ++ d2 }

/-- One iteration of the row loop of `convertTransactions`: the
row-values check is performed unconditionally, then the switch on the
transaction type dispatches to the cases above.  The seven historically
unverified types abort the run. -/
def stepWith (ord : List (String × Ledger) → List (String × Ledger))
    (price : String → String → Option String) (uk : String → String)
    (e : Ledger) (s : St) : RunResult St :=
  let checked := areRowValuesAcceptable e
  let s := { s with diags := s.diags ++ checked.2 }
  if e.format = "deposit" then RunResult.ok (depositCase uk e checked.1 s)
  else if e.format = "spend" then RunResult.ok (spendCase e s)
  else if e.format = "receive" then receiveCase uk e s
  else if e.format = "withdrawal" then RunResult.ok (withdrawalCase uk e s)
  else if e.format = "transfer" then RunResult.ok (transferCase e s)
  else if e.format = "staking" then stakingCase ord price uk e checked.1 s
  else if e.format = "trade" ∨ e.format = "margin trade" ∨ e.format = "rollover" ∨
      e.format = "adjustment" ∨ e.format = "settled" ∨ e.format = "reward" ∨
      e.format = "sale" then
    RunResult.fatal (Diag.unhandledTransactionType e.row e.format)
  else
    RunResult.ok { s with diags := s.diags ++ [Diag.unrecognisedFormat e.format] }

/-- Build a `ledger` value from a raw row, modelling the ten positional
accesses `row[0] .. row[9]` (any missing field is a Go panic). -/
def mkLedger (idx : Nat) (row : Row) : Option Ledger := do
  let txid ← row.get? 0
  let refid ← row.get? 1
  let time ← row.get? 2
  let format ← row.get? 3
  let subtype ← row.get? 4
  let aclass ← row.get? 5
  let asset ← row.get? 6
  let amount ← row.get? 7
  let fee ← row.get? 8
  let balance ← row.get? 9
  pure { row := idx, txid := txid, refid := refid, time := time, format := format
         subtype := subtype, aclass := aclass, asset := asset, amount := amount
         fee := fee, balance := balance }

/-- The row loop of `convertTransactions`.  `ords` supplies the map
iteration order used by the staking heuristic at each row index. -/
def runRows (ords : Nat → List (String × Ledger) → List (String × Ledger))
    (price : String → String → Option String) (uk : String → String) :
    List Row → Nat → St → RunResult St
  | [], _, s => RunResult.ok s
  | row :: rest, idx, s =>
    match mkLedger idx row with
    | none => RunResult.panic
    | some e =>
      match stepWith (ords idx) price uk e s with
      | RunResult.ok s1 => runRows ords price uk rest (idx + 1) s1
      | RunResult.fatal d => RunResult.fatal d
      | RunResult.panic => RunResult.panic

/-- The expected header of the Kraken export handled by
convert-kraken.go. -/
def expectedFirstRow : List String :=
  ["txid", "refid", "time", "type", "subtype", "aclass", "asset", "amount",
   "fee", "balance"]

/-- Kraken records some currencies under legacy tickers. -/
def currencyTranslation : List (String × String) :=
  [("XXBT", "BTC"), ("XXDG", "DOGE"), ("XETH", "ETH")]

/-- Apply the ticker translation to one currency key. -/
def translate (k : String) : String :=
  match alFind currencyTranslation k with
  | some r => r
  | none => k

/-- Ascending sort of currency names (`sort.Strings`).  Go's sort is an
unstable in-place sort; since equal keys are identical strings, any
correct ascending sort produces the same list, so insertion sort is a
faithful model. -/
def sortStrings (l : List String) : List String :=
  l.insertionSort (fun a b => a ≤ b)

/-- The per-currency group retrieval of the final output loop: direct
lookup first, then the reverse lookup through the ticker translation
(whose Go map iteration order is supplied by `ord3`). -/
def groupData (ord3 : List (String × String) → List (String × String))
    (out : List (String × List Row)) (c : String) : List Row × List Diag :=
  match alFind out c with
  | some d => (d, [])
  | none =>
    match (ord3 currencyTranslation).find? (fun p => p.2 == c) with
    | none => ([], [])
    | some po =>
      match alFind out po.1 with
      | some d => (d, [])
      | none => ([], [Diag.failedToFindTranslatedData c po.1])

/-- The final presentation pass of `convertTransactions`: collect the
currency keys (iteration order `ord2`), translate and sort them, then
emit each group behind two blank rows and a banner row, with a trailing
blank row.  Returns the rows of the output file and the diagnostics. -/
def finalizeWith (ord2 : List (String × List Row) → List (String × List Row))
    (ord3 : List (String × String) → List (String × String))
    (out : List (String × List Row)) : List Row × List Diag :=
  let currencies := sortStrings ((ord2 out).map (fun p => translate p.1))
  currencies.foldl
    (fun acc c =>
      let g := groupData ord3 out c
      (acc.1 ++ [["", ""], ["", ""], [c, "Data for a fixed currency"]] ++ g.1 ++
        [["", ""]], acc.2 ++ g.2))
    ([], [])

/-- The end-of-loop reports for unmatched pending entries (pending token
deposits are not reported by the source). -/
def unmatchedDiags (s : St) : List Diag :=
  s.pendingSpends.map (fun p => Diag.unmatchedSpend p.2.row) ++
  s.pendingWithdrawals.map (fun p => Diag.unmatchedWithdrawal p.2.row) ++
  s.pendingStakingDeposits.map (fun p => Diag.unmatchedStakingDeposit p.2.row)

/-- `convertTransactions` of convert-kraken.go: check the header row
(reading `transactions[0]`), read `transactions[1][2]` for the price
look-back computation, run the row loop from CSV row index 2, report
unmatched pending entries, and produce the grouped output. -/
def convertTransactionsWith
    (ords : Nat → List (String × Ledger) → List (String × Ledger))
    (ord2 : List (String × List Row) → List (String × List Row))
    (ord3 : List (String × String) → List (String × String))
    (price : String → String → Option String) (uk : String → String)
    (transactions : List Row) : RunResult (List Row × List Diag) :=
  match transactions.get? 0 with
  | none => RunResult.panic
  | some firstRow =>
    let header := testSlicesEqual firstRow expectedFirstRow
    if header.1 then
      match (transactions.get? 1).bind (fun r => r.get? 2) with
      | none => RunResult.panic
      | some _ =>
        match runRows ords price uk (transactions.drop 1) 2 St.init with
        | RunResult.ok s =>
          let fin := finalizeWith ord2 ord3 s.output
          RunResult.ok (fin.1, s.diags ++ unmatchedDiags s ++ fin.2)
        | RunResult.fatal d => RunResult.fatal d
        | RunResult.panic => RunResult.panic
    else RunResult.fatal Diag.firstRowFailsToMatch

/-- The converter with all map-iteration orders fixed to the stored
order (one concrete resolution of Go's randomised order). -/
def convertTransactions (price : String → String → Option String)
    (uk : String → String) (transactions : List Row) :
    RunResult (List Row × List Diag) :=
  convertTransactionsWith (fun _ l => l) (fun l => l) (fun l => l) price uk
    transactions

end Kraken

namespace Nexo

/-- State of the Nexo converter loop: the output rows, the
`exchangeToWithdraw` FIFO of raw rows, and the printed diagnostics. -/
structure St where
  output : List Row
  fifo : List Row
  diags : List Diag
deriving Repr, DecidableEq

/-- The initial Nexo conversion state. -/
def St.init : St := { output := [], fifo := [], diags := [] }

/-- Float-comparison oracles standing in for the two
`strconv.ParseFloat` based checks of convert-nexo.go (`fneg a b` is the
source's `inputAmountFloat == -outputAmountFloat`, `feq a b` its
`inputAmountFloat == outputAmountFloat`).  Both only influence
diagnostics, never output rows, the FIFO, or control flow. -/
structure FloatOracle where
  fneg : String → String → Bool
  feq : String → String → Bool

/-- The "LockingTermDeposit" case: validation only, no output. -/
def lockingTermDepositCase (fo : FloatOracle) (row : Row) (s : St) : RunResult St := do
  let t0 ← getF row 0
  let t2 ← getF row 2
  let t4 ← getF row 4
  let d1 : List Diag :=
    if t2 ≠ t4 then [Diag.nexoCheck "LockingTermDeposit currency" t0] else []
  let t3 ← getF row 3
  let t5 ← getF row 5
  let c3 ← firstCharR t3
  let d2 : List Diag :=
    if c3 ≠ '-' ∨ strDrop t3 1 ≠ t5 then
      (if t2 = "GBPX" ∧ fo.fneg t3 t5 then []
       else [Diag.nexoCheck "LockingTermDeposit amount" t0])
    else []
  let t7 ← getF row 7
  let d3 : List Diag :=
    if ¬ strStartsWith t7 "approved / Transfer from Savings Wallet to Term Wallet" then
      [Diag.nexoCheck "LockingTermDeposit details" t0]
    else []
  let t6 ← getF row 6
  let c6 ← firstCharR t6
  let d4 : List Diag :=
    if c6 ≠ '$' then [Diag.nexoCheck "LockingTermDeposit dollars" t0] else []
  pure { s with diags := s.diags ++ d1 ++ d2 ++ d3 ++ d4 }

/-- The "UnlockingTermDeposit" case: validation only, no output. -/
def unlockingTermDepositCase (fo : FloatOracle) (row : Row) (s : St) : RunResult St := do
  let t0 ← getF row 0
  let t2 ← getF row 2
  let t4 ← getF row 4
  let d1 : List Diag :=
    if t2 ≠ t4 then [Diag.nexoCheck "UnlockingTermDeposit currency" t0] else []
  let t3 ← getF row 3
  let t5 ← getF row 5
  let d2 : List Diag :=
    if t3 ≠ t5 then
      (if t2 = "GBPX" ∧ fo.feq t3 t5 then []
       else [Diag.nexoCheck "UnlockingTermDeposit amount" t0])
    else []
  let t7 ← getF row 7
  let d3 : List Diag :=
    if ¬ strStartsWith t7 "approved / Transfer from Term Wallet to Savings Wallet" then
      [Diag.nexoCheck "UnlockingTermDeposit details" t0]
    else []
  let t6 ← getF row 6
  let c6 ← firstCharR t6
  let d4 : List Diag :=
    if c6 ≠ '$' then [Diag.nexoCheck "UnlockingTermDeposit dollars" t0] else []
  pure { s with diags := s.diags ++ d1 ++ d2 ++ d3 ++ d4 }

/-- The "Interest" case (also reached from "FixedTermInterest" by
fallthrough): validated, then recorded as a STAKING output row. -/
def interestCase (row : Row) (s : St) : RunResult St := do
  let t0 ← getF row 0
  let t2 ← getF row 2
  let t4 ← getF row 4
  let d1 : List Diag :=
    if t2 ≠ "NEXO" ∨ t4 ≠ "NEXO" then [Diag.nexoCheck "Interest currency" t0] else []
  let t7 ← getF row 7
  let d2 : List Diag :=
    if ¬ strStartsWith t7 "approved / " then [Diag.nexoCheck "Interest details" t0]
    else []
  let t6 ← getF row 6
  let c6 ← firstCharR t6
  let d3 : List Diag :=
    if c6 ≠ '$' then [Diag.nexoCheck "Interest dollars" t0] else []
  let t3 ← getF row 3
  let t9 ← getF row 9
  let entry := ["", "nexo.io", t9, "", t3, "", strDrop t6 1,
    "", "", "", "", "", "", "STAKING"]
  pure { s with output := s.output ++ [entry], diags := s.diags ++ d1 ++ d2 ++ d3 }

/-- The "Deposit" case: validated, then recorded as a REWARD output
row. -/
def depositCase (row : Row) (s : St) : RunResult St := do
  let t0 ← getF row 0
  let t2 ← getF row 2
  let t4 ← getF row 4
  let d1 : List Diag :=
    if t2 ≠ "NEXO" ∨ t4 ≠ "NEXO" then [Diag.nexoCheck "Deposit currency" t0] else []
  let t7 ← getF row 7
  let d2 : List Diag :=
    if t7 ≠ "approved / Nexonomics Exchange Cash-back Promotion" then
      [Diag.nexoCheck "Deposit details" t0]
    else []
  let t6 ← getF row 6
  let c6 ← firstCharR t6
  let d3 : List Diag :=
    if c6 ≠ '$' then [Diag.nexoCheck "Deposit dollars" t0] else []
  let t3 ← getF row 3
  let t9 ← getF row 9
  let entry := ["", "nexo.io", t9, "", t3, "", strDrop t6 1,
    "", "", "", "", "", "", "REWARD"]
  pure { s with output := s.output ++ [entry], diags := s.diags ++ d1 ++ d2 ++ d3 }

/-- The "Exchange Cashback" case: validation only; the source records
nothing for it yet. -/
def exchangeCashbackCase (row : Row) (s : St) : RunResult St := do
  let t0 ← getF row 0
  let t2 ← getF row 2
  let t4 ← getF row 4
  let d1 : List Diag :=
    if t2 ≠ "BTC" ∨ t4 ≠ "BTC" then [Diag.nexoCheck "Exchange Cashback currency" t0]
    else []
  let t3 ← getF row 3
  let t5 ← getF row 5
  let d2 : List Diag :=
    if t3 ≠ t5 then [Diag.nexoCheck "Exchange Cashback amount" t0] else []
  let t7 ← getF row 7
  let d3 : List Diag :=
    if t7 ≠ "approved / 0.5% on top of your Exchange transaction" then
      [Diag.nexoCheck "Exchange Cashback details" t0]
    else []
  let t6 ← getF row 6
  let c6 ← firstCharR t6
  let d4 : List Diag :=
    if c6 ≠ '$' then [Diag.nexoCheck "Exchange Cashback dollars" t0] else []
  pure { s with diags := s.diags ++ d1 ++ d2 ++ d3 ++ d4 }

/-- The "Exchange" case: validation only; the output statement is
commented out in the source. -/
def exchangeCase (row : Row) (s : St) : RunResult St := do
  let t0 ← getF row 0
  let t4 ← getF row 4
  let allowed := t4 = "BTC" ∨ t4 = "NEXO" ∨ t4 = "USDC" ∨ t4 = "UST"
  let d1 : List Diag :=
    if ¬ allowed then [Diag.nexoCheck "Exchange output currency" t0] else []
  let t2 ← getF row 2
  let d2 : List Diag :=
    if t2 ≠ "GBPX/" ++ t4 then [Diag.nexoCheck "Exchange input currency" t0] else []
  let t3 ← getF row 3
  let t5 ← getF row 5
  let d3 : List Diag :=
    if t3 ≠ t4 ++ " " ++ t5 then [Diag.nexoCheck "Exchange input amount" t0] else []
  let t6 ← getF row 6
  let c6 ← firstCharR t6
  let d4 : List Diag :=
    if c6 ≠ '$' then [Diag.nexoCheck "Exchange dollars" t0] else []
  pure { s with diags := s.diags ++ d1 ++ d2 ++ d3 ++ d4 }

/-- The "ExchangeToWithdraw" case: validated, then pushed on the FIFO
awaiting the matching "WithdrawExchanged". -/
def exchangeToWithdrawCase (fo : FloatOracle) (row : Row) (s : St) : RunResult St := do
  let t0 ← getF row 0
  let t2 ← getF row 2
  let t4 ← getF row 4
  let d1 : List Diag :=
    if t2 ≠ "GBPX" ∨ t4 ≠ "GBP" then
      [Diag.nexoCheck "ExchangeToWithdraw currency" t0]
    else []
  let t3 ← getF row 3
  let t5 ← getF row 5
  let c3 ← firstCharR t3
  let d2 : List Diag :=
    if c3 ≠ '-' ∨ strDrop t3 1 ≠ t5 then
      (if t2 = "GBPX" ∧ fo.fneg t3 t5 then []
       else [Diag.nexoCheck "ExchangeToWithdraw amount" t0])
    else []
  let t6 ← getF row 6
  let c6 ← firstCharR t6
  let d3 : List Diag :=
    if c6 ≠ '$' then [Diag.nexoCheck "ExchangeToWithdraw dollars" t0] else []
  let t7 ← getF row 7
  let d4 : List Diag :=
    if t7 ≠ "approved / GBPX to GBP" then
      [Diag.nexoCheck "ExchangeToWithdraw details" t0]
    else []
  pure { s with fifo := s.fifo ++ [row], diags := s.diags ++ d1 ++ d2 ++ d3 ++ d4 }

/-- The "WithdrawExchanged" case.  The guard on the FIFO reads
`len(exchangeToWithdraw) < 0`, which can never hold, so the no-match
diagnostic is unreachable and `exchangeToWithdraw[0]` is evaluated on
whatever FIFO is present — a runtime panic when it is empty. -/
def withdrawExchangedCase (row : Row) (s : St) : RunResult St := do
  let t0 ← getF row 0
  let t2 ← getF row 2
  let t4 ← getF row 4
  let d1 : List Diag :=
    if t2 ≠ "GBP" ∨ t4 ≠ "GBP" then
      [Diag.nexoCheck "WithdrawExchanged currency" t0]
    else []
  let t6 ← getF row 6
  let c6 ← firstCharR t6
  let d2 : List Diag :=
    if c6 ≠ '$' then [Diag.nexoCheck "WithdrawExchanged dollars" t0] else []
  let t7 ← getF row 7
  let d3 : List Diag :=
    if t7 ≠ "approved / GBP withdrawal" then
      [Diag.nexoCheck "WithdrawExchanged details" t0]
    else []
  if (s.fifo.length : Int) < 0 then
    pure { s with diags := s.diags ++ d1 ++ d2 ++ d3 ++
      [Diag.nexoNoMatchingExchangeToWithdraw t0] }
  else
    match s.fifo.get? 0 with
    | none => RunResult.panic
    | some m => do
      let t3 ← getF row 3
      let m0 ← getF m 0
      let m3 ← getF m 3
      let m4 ← getF m 4
      let d4 : List Diag :=
        if t3 ≠ m3 ∨ t4 ≠ m4 then
          [Diag.nexoNonMatchingExchangeToWithdraw t0 m0]
        else []
      pure { s with fifo := s.fifo.drop 1, diags := s.diags ++ d1 ++ d2 ++ d3 ++ d4 }

/-- The unconditional outstanding-loan check at the top of every Nexo
row iteration (convert-nexo.go lines 160-166): a diagnostic when column
8 is not `$0.00`. -/
def loanCheck (row : Row) (s : St) : RunResult St := do
  let loan ← getF row 8
  let t0 ← getF row 0
  let dLoan : List Diag :=
    if loan ≠ "$0.00" then [Diag.nexoCheck "Outstanding Loan" t0] else []
  pure { s with diags := s.diags ++ dLoan }

/-- The tail of the Nexo type switch, from "Deposit" down to the
unhandled-type default (convert-nexo.go lines 244-457). -/
def dispatchRest (fo : FloatOracle) (t1 : String) (row : Row) (s : St) :
    RunResult St :=
  if t1 = "Deposit" then depositCase row s
  else if t1 = "Exchange Cashback" then exchangeCashbackCase row s
  else if t1 = "Exchange" then exchangeCase row s
  else if t1 = "ExchangeToWithdraw" then exchangeToWithdrawCase fo row s
  else if t1 = "WithdrawExchanged" then withdrawExchangedCase row s
  else RunResult.ok { s with diags := s.diags ++ [Diag.nexoUnhandledSwitchOption t1] }

/-- The switch on the transaction type of a Nexo row (convert-nexo.go
lines 168-457), with the tail of the switch in `dispatchRest`. -/
def dispatch (fo : FloatOracle) (row : Row) (s : St) : RunResult St := do
  let t1 ← getF row 1
  if t1 = "LockingTermDeposit" then lockingTermDepositCase fo row s
  else if t1 = "UnlockingTermDeposit" then unlockingTermDepositCase fo row s
  else if t1 = "FixedTermInterest" then interestCase row s
  else if t1 = "Interest" then interestCase row s
  else dispatchRest fo t1 row s

/-- One iteration of the row loop of the Nexo `convertTransactions`
(convert-nexo.go lines 154-459): the outstanding-loan check runs
unconditionally, then the switch on the transaction type. -/
def step (fo : FloatOracle) (row : Row) (s : St) : RunResult St := do
  let s1 ← loanCheck row s
  dispatch fo row s1

/-- The Nexo `convertTransactions` loop over the (already reversed)
data rows, followed by the leftover-FIFO report. -/
def runRows (fo : FloatOracle) : List Row → St → RunResult St
  | [], s =>
    RunResult.ok
      (if s.fifo.length > 0 then { s with diags := s.diags ++ [Diag.nexoLeftoverFifo] }
       else s)
  | row :: rest, s => do
    let s1 ← step fo row s
    runRows fo rest s1

/-- `convertTransactions` of convert-nexo.go (first version): run every
row and return the output rows and diagnostics. -/
def convertTransactions (fo : FloatOracle) (rows : List Row) :
    RunResult (List Row × List Diag) := do
  let s ← runRows fo rows St.init
  pure (s.output, s.diags)

/-- The expected header of the Nexo export. -/
def expectedFirstRow : List String :=
  ["Transaction", "Type", "Input Currency", "Input Amount", "Output Currency",
   "Output Amount", "USD Equivalent", "Details", "Outstanding Loan", "Date / Time"]

/-- The per-column report printed by the Nexo `main` when the header
row mismatches: one line per column of the actual first row, comparing
it against the expected header (an actual row longer than the expected
one makes the loop index the expected slice out of range, a panic). -/
def headerReportLoop : Nat → List String → RunResult (List Diag)
  | _, [] => RunResult.ok []
  | i, a :: rest => do
    match expectedFirstRow.get? i with
    | none => RunResult.panic
    | some e => do
      let ds ← headerReportLoop (i + 1) rest
      if a ≠ e then pure (Diag.nexoHeaderMismatchAt i a e :: ds)
      else pure (Diag.nexoHeaderMatchAt i :: ds)

/-- The input handling of the Nexo `main` (convert-nexo.go lines
100-132): reject fewer than two rows, check the header (printing the
detailed mismatch report before aborting), drop the header and reverse
the remaining rows into chronological order, then convert.  The
returned diagnostics of the fatal path are the header report. -/
def mainModel (fo : FloatOracle) (transactions : List Row) :
    RunResult (List Row × List Diag) :=
  if transactions.length < 2 then
    RunResult.fatal (Diag.nexoTooFewRows transactions.length)
  else
    match transactions.get? 0 with
    | none => RunResult.panic
    | some firstRow =>
      if (testSlicesEqual firstRow expectedFirstRow).1 then
        convertTransactions fo (transactions.drop 1).reverse
      else
        match headerReportLoop 0 firstRow with
        | RunResult.ok _ => RunResult.fatal Diag.nexoHeaderFatal
        | RunResult.fatal d => RunResult.fatal d
        | RunResult.panic => RunResult.panic

end Nexo

namespace Cdc

/-- State of the Crypto.com converter loop: the per-currency output map
and the printed diagnostics. -/
structure St where
  output : List (String × List Row)
  diags : List Diag
deriving Repr, DecidableEq

/-- The initial Crypto.com conversion state. -/
def St.init : St := { output := [], diags := [] }

/-- `areRowValuesAcceptable` of convert-cdc.go: compare the currency,
native-currency and kind cells against their expected values and insist
the two trailing arguments are blank (every call site passes ""). -/
def areRowValuesAcceptable (csvRow : Nat)
    (currency expectedCurrency nativeCurrency expectedNativeCurrency
     kind expectedKind toCurrency toAmount : String) : Bool × List Diag :=
  let d1 : List Diag :=
    if currency ≠ expectedCurrency then
      [Diag.cdcExpectedCurrency csvRow expectedCurrency currency]
    else []
  let d2 : List Diag :=
    if nativeCurrency ≠ expectedNativeCurrency then
      [Diag.cdcExpectedNativeCurrency csvRow expectedNativeCurrency nativeCurrency]
    else []
  let d3 : List Diag :=
    if kind ≠ expectedKind then [Diag.cdcExpectedKind csvRow expectedKind kind]
    else []
  let d4 : List Diag :=
    if toCurrency ≠ "" then [Diag.cdcToCurrencyNotBlank csvRow toCurrency] else []
  let d5 : List Diag :=
    if toAmount ≠ "" then [Diag.cdcToAmountNotBlank csvRow toAmount] else []
  (d1 = [] ∧ d2 = [] ∧ d3 = [] ∧ d4 = [] ∧ d5 = [], d1 ++ d2 ++ d3 ++ d4 ++ d5)

/-- The `output[a] = append(output[b], entry)` statements the source
uses on the bad-data paths of the exchange branches (reading the list
stored under `b` but storing the extended list under `a`). -/
def outAppendCross (m : List (String × List Row)) (a b : String) (v : Row) :
    List (String × List Row) :=
  alInsert m a ((alFind m b).getD [] ++ [v])

/-- The "Sign-up Bonus Unlocked" branch of the Crypto.com row loop
(convert-cdc.go lines 99-113). -/
def signupBonusCase (csvRow : Nat)
    (exchangeTime ukTime currency amount nativeCurrency nativeAmount kind : String)
    (s : St) : RunResult St :=
  if (areRowValuesAcceptable csvRow currency "CRO" nativeCurrency "USD" kind "referral_gift" "" "").1 then
    let entry := ["", "crypto.com App", exchangeTime, ukTime, amount, "", nativeAmount, "", "", "", "", "", "", "REWARD"]
    let d := s.diags ++ (areRowValuesAcceptable csvRow currency "CRO" nativeCurrency "USD" kind "referral_gift" "" "").2
    RunResult.ok { s with output := outAppend s.output currency entry, diags := d }
  else
    let entry := ["**BAD DATA**", "crypto.com App", exchangeTime, ukTime, amount, "", nativeAmount, "", "", "", "", "", "", "REWARD **BAD DATA**"]
    let d := s.diags ++ (areRowValuesAcceptable csvRow currency "CRO" nativeCurrency "USD" kind "referral_gift" "" "").2 ++ [Diag.badValueSeen "Sign-up Bonus Unlocked"]
    RunResult.ok { s with output := outAppend s.output currency entry, diags := d }

/-- The "Crypto Earn Withdrawal" branch of the Crypto.com row loop
(convert-cdc.go lines 116-124). -/
def earnWithdrawalCase (csvRow : Nat)
    (exchangeTime ukTime currency amount nativeCurrency nativeAmount kind : String)
    (s : St) : RunResult St :=
  if (areRowValuesAcceptable csvRow currency currency nativeCurrency "GBP" kind "crypto_earn_program_withdrawn" "" "").1 then
    let d := s.diags ++ (areRowValuesAcceptable csvRow currency currency nativeCurrency "GBP" kind "crypto_earn_program_withdrawn" "" "").2
    RunResult.ok { s with diags := d }
  else
    let entry := ["***BAD DATA***", "crypto.com App", exchangeTime, ukTime, amount, "", "", "", nativeAmount, "", "", "", "", "REWARD **BAD DATA**"]
    let d := s.diags ++ (areRowValuesAcceptable csvRow currency currency nativeCurrency "GBP" kind "crypto_earn_program_withdrawn" "" "").2 ++ [Diag.badValueSeen "Crypto Earn Withdrawal"]
    RunResult.ok { s with output := outAppend s.output currency entry, diags := d }

/-- The "* Deposit" branch of the Crypto.com row loop (convert-cdc.go
lines 125-138). -/
def depositCase (csvRow : Nat)
    (exchangeTime ukTime description currency amount nativeCurrency nativeAmount
     kind : String) (s : St) : RunResult St :=
  match (goFields description).get? 0 with
  | none => RunResult.panic
  | some depositCurrency =>
    if (areRowValuesAcceptable csvRow currency depositCurrency nativeCurrency "GBP" kind "crypto_deposit" "" "").1 then
      let entry := ["", "crypto.com App", exchangeTime, ukTime, amount, "", nativeAmount, "", "", "", "", "", "", "TRANSFER-IN"]
      let d := s.diags ++ (areRowValuesAcceptable csvRow currency depositCurrency nativeCurrency "GBP" kind "crypto_deposit" "" "").2
      RunResult.ok { s with output := outAppend s.output currency entry, diags := d }
    else
      let entry := ["**BAD DATA**", "crypto.com App", exchangeTime, ukTime, amount, "", nativeAmount, "", "", "", "", "", "", "TRANSFER-IN **BAD DATA**"]
      let d := s.diags ++ (areRowValuesAcceptable csvRow currency depositCurrency nativeCurrency "GBP" kind "crypto_deposit" "" "").2 ++ [Diag.badValueSeen "* Deposit"]
      RunResult.ok { s with output := outAppend s.output currency entry, diags := d }

/-- The "A -> B" exchange branch of the Crypto.com row loop
(convert-cdc.go lines 139-173), dispatching further on the transaction
kind. -/
def exchangeCase (csvRow : Nat)
    (exchangeTime ukTime description currency amount toCurrency toAmount
     nativeCurrency nativeAmount kind : String) (s : St) : RunResult St :=
  match (goFields description).get? 0, (goFields description).get? 2 with
  | some convertFromCurrency, some convertToCurrency =>
    if kind = "viban_purchase" then
      if (areRowValuesAcceptable csvRow currency "GBP" nativeCurrency convertFromCurrency kind "viban_purchase" "" "").1 ∧ currency = convertFromCurrency ∧ toCurrency = convertToCurrency then
        let entry := ["", "crypto.com App", exchangeTime, ukTime, toAmount, "", "", "", nativeAmount, "", "", "", "", "BUY"]
        let d := s.diags ++ (areRowValuesAcceptable csvRow currency "GBP" nativeCurrency convertFromCurrency kind "viban_purchase" "" "").2
        RunResult.ok { s with output := outAppend s.output convertToCurrency entry, diags := d }
      else
        let entry := ["**BAD DATA**", "crypto.com App", exchangeTime, ukTime, toAmount, "", "", "", nativeAmount, "", "", "", "", "BUY **BAD DATA**"]
        let d := s.diags ++ (areRowValuesAcceptable csvRow currency "GBP" nativeCurrency convertFromCurrency kind "viban_purchase" "" "").2 ++ [Diag.badValueSeen "exchange viban_purchase"]
        RunResult.ok { s with output := outAppendCross s.output currency convertToCurrency entry, diags := d }
    else if kind = "crypto_exchange" then
      if (areRowValuesAcceptable csvRow currency convertFromCurrency nativeCurrency "GBP" kind "crypto_exchange" "" "").1 ∧ currency = convertFromCurrency ∧ toCurrency = convertToCurrency then
        let entry1 := ["", "crypto.com App", exchangeTime, ukTime, amount, "", "", "", nativeAmount, "", "", "", "", "SELL"]
        let entry2 := ["", "crypto.com App", exchangeTime, ukTime, toAmount, "", "", "", nativeAmount, "", "", "", "", "BUY"]
        let d := s.diags ++ (areRowValuesAcceptable csvRow currency convertFromCurrency nativeCurrency "GBP" kind "crypto_exchange" "" "").2 ++ [Diag.cdcDebugExchange ukTime]
        RunResult.ok { s with output := outAppend (outAppend s.output convertFromCurrency entry1) convertToCurrency entry2, diags := d }
      else
        let entry := ["**BAD DATA**", "crypto.com App", exchangeTime, ukTime, toAmount, "", "", "", nativeAmount, "", "", "", "", "BUY **BAD DATA**"]
        let d := s.diags ++ (areRowValuesAcceptable csvRow currency convertFromCurrency nativeCurrency "GBP" kind "crypto_exchange" "" "").2 ++ [Diag.badValueSeen "exchange crypto_exchange"]
        RunResult.ok { s with output := outAppendCross s.output currency convertToCurrency entry, diags := d }
    else
      let entry := ["**BAD DATA**", "crypto.com App", exchangeTime, ukTime, toAmount, "", "", "", nativeAmount, "", "", "", "", "BUY **BAD DATA**"]
      let d := s.diags ++ [Diag.badValueSeen "exchange UNKNOWN"]
      RunResult.ok { s with output := outAppendCross s.output currency convertToCurrency entry, diags := d }
  | _, _ => RunResult.panic

/-- The "CRO Stake Rewards" branch of the Crypto.com row loop
(convert-cdc.go lines 174-185). -/
def stakeRewardsCase (csvRow : Nat)
    (exchangeTime ukTime currency amount nativeCurrency nativeAmount kind : String)
    (s : St) : RunResult St :=
  if (areRowValuesAcceptable csvRow currency "CRO" nativeCurrency "GBP" kind "mco_stake_reward" "" "").1 then
    let entry := ["", "crypto.com App", exchangeTime, ukTime, amount, "", "", "", nativeAmount, "", "", "", "", "STAKING"]
    let d := s.diags ++ (areRowValuesAcceptable csvRow currency "CRO" nativeCurrency "GBP" kind "mco_stake_reward" "" "").2
    RunResult.ok { s with output := outAppend s.output currency entry, diags := d }
  else
    let entry := ["**BAD DATA**", "crypto.com App", exchangeTime, ukTime, amount, "", "", "", nativeAmount, "", "", "", "", "STAKING **BAD DATA**"]
    let d := s.diags ++ (areRowValuesAcceptable csvRow currency "CRO" nativeCurrency "GBP" kind "mco_stake_reward" "" "").2 ++ [Diag.badValueSeen "CRO Stake Rewards"]
    RunResult.ok { s with output := outAppend s.output currency entry, diags := d }

/-- The "CRO Stake" branch of the Crypto.com row loop (convert-cdc.go
lines 186-194). -/
def croStakeCase (csvRow : Nat)
    (exchangeTime ukTime currency amount nativeCurrency nativeAmount kind : String)
    (s : St) : RunResult St :=
  if (areRowValuesAcceptable csvRow currency "CRO" nativeCurrency "GBP" kind "lockup_lock" "" "").1 then
    let d := s.diags ++ (areRowValuesAcceptable csvRow currency "CRO" nativeCurrency "GBP" kind "lockup_lock" "" "").2
    RunResult.ok { s with diags := d }
  else
    let entry := ["**BAD DATA**", "crypto.com App", exchangeTime, ukTime, amount, "", "", "", nativeAmount, "", "", "", "", "CRO STAKE **BAD DATA**"]
    let d := s.diags ++ (areRowValuesAcceptable csvRow currency "CRO" nativeCurrency "GBP" kind "lockup_lock" "" "").2 ++ [Diag.badValueSeen "CRO Stake"]
    RunResult.ok { s with output := outAppend s.output currency entry, diags := d }

/-- The "CRO Unstake" branch of the Crypto.com row loop (convert-cdc.go
lines 195-203). -/
def croUnstakeCase (csvRow : Nat)
    (exchangeTime ukTime currency amount nativeCurrency nativeAmount kind : String)
    (s : St) : RunResult St :=
  if (areRowValuesAcceptable csvRow currency "CRO" nativeCurrency "GBP" kind "lockup_unlock" "" "").1 then
    let d := s.diags ++ (areRowValuesAcceptable csvRow currency "CRO" nativeCurrency "GBP" kind "lockup_unlock" "" "").2
    RunResult.ok { s with diags := d }
  else
    let entry := ["**BAD DATA**", "crypto.com App", exchangeTime, ukTime, amount, "", "", "", nativeAmount, "", "", "", "", "CRO UNSTAKE **BAD DATA**"]
    let d := s.diags ++ (areRowValuesAcceptable csvRow currency "CRO" nativeCurrency "GBP" kind "lockup_unlock" "" "").2 ++ [Diag.badValueSeen "CRO Unstake"]
    RunResult.ok { s with output := outAppend s.output currency entry, diags := d }

/-- The "Card Cashback" branch of the Crypto.com row loop
(convert-cdc.go lines 204-216). -/
def cardCashbackCase (csvRow : Nat)
    (exchangeTime ukTime currency amount nativeCurrency nativeAmount kind : String)
    (s : St) : RunResult St :=
  if (areRowValuesAcceptable csvRow currency "CRO" nativeCurrency "GBP" kind "referral_card_cashback" "" "").1 then
    let entry := ["", "crypto.com App", exchangeTime, ukTime, amount, "", "", "", nativeAmount, "", "", "", "", "CASHBACK"]
    let d := s.diags ++ (areRowValuesAcceptable csvRow currency "CRO" nativeCurrency "GBP" kind "referral_card_cashback" "" "").2
    RunResult.ok { s with output := outAppend s.output currency entry, diags := d }
  else
    let entry := ["***BAD DATA***", "crypto.com App", exchangeTime, ukTime, amount, "", "", "", nativeAmount, "", "", "", "", "CASHBACK **BAD DATA**"]
    let d := s.diags ++ (areRowValuesAcceptable csvRow currency "CRO" nativeCurrency "GBP" kind "referral_card_cashback" "" "").2 ++ [Diag.badValueSeen "Card Cashback"]
    RunResult.ok { s with output := outAppend s.output currency entry, diags := d }

/-- The "Crypto Earn" branch of the Crypto.com row loop (convert-cdc.go
lines 217-219): an unvalidated STAKING record. -/
def cryptoEarnCase (exchangeTime ukTime currency amount nativeAmount : String)
    (s : St) : RunResult St :=
  let entry := ["", "crypto.com App", exchangeTime, ukTime, amount, "", "", "", nativeAmount, "", "", "", "", "STAKING"]
  RunResult.ok { s with output := outAppend s.output currency entry }

/-- The "Card Cashback Reversal" branch of the Crypto.com row loop
(convert-cdc.go lines 220-232). -/
def cashbackReversalCase (csvRow : Nat)
    (exchangeTime ukTime currency amount nativeCurrency nativeAmount kind : String)
    (s : St) : RunResult St :=
  if (areRowValuesAcceptable csvRow currency "CRO" nativeCurrency "GBP" kind "card_cashback_reverted" "" "").1 then
    let entry := ["", "crypto.com App", exchangeTime, ukTime, amount, "", "", "", nativeAmount, "", "", "", "", "CASHBACK-REVERSAL"]
    let d := s.diags ++ (areRowValuesAcceptable csvRow currency "CRO" nativeCurrency "GBP" kind "card_cashback_reverted" "" "").2
    RunResult.ok { s with output := outAppend s.output currency entry, diags := d }
  else
    let entry := ["***BAD DATA***", "crypto.com App", exchangeTime, ukTime, amount, "", "", "", nativeAmount, "", "", "", "", "CASHBACK-REVERSAL **BAD DATA**"]
    let d := s.diags ++ (areRowValuesAcceptable csvRow currency "CRO" nativeCurrency "GBP" kind "card_cashback_reverted" "" "").2 ++ [Diag.badValueSeen "Card Cashback Reversal"]
    RunResult.ok { s with output := outAppend s.output currency entry, diags := d }

/-- The "Withdraw *" branch of the Crypto.com row loop (convert-cdc.go
lines 233-245). -/
def withdrawCase (csvRow : Nat)
    (exchangeTime ukTime description currency amount nativeCurrency nativeAmount
     kind : String) (s : St) : RunResult St :=
  match (goFields description).get? 1 with
  | none => RunResult.panic
  | some withdrawCurrency =>
    if (areRowValuesAcceptable csvRow currency withdrawCurrency nativeCurrency "GBP" kind "crypto_withdrawal" "" "").1 then
      let entry := ["", "crypto.com App", exchangeTime, ukTime, amount, "", "", "", nativeAmount, "", "", "", "", "TRANSFER-OUT"]
      let d := s.diags ++ (areRowValuesAcceptable csvRow currency withdrawCurrency nativeCurrency "GBP" kind "crypto_withdrawal" "" "").2
      RunResult.ok { s with output := outAppend s.output currency entry, diags := d }
    else
      let entry := ["***BAD DATA***", "crypto.com App", exchangeTime, ukTime, amount, "", "", "", nativeAmount, "", "", "", "", "TRANSFER-OUT **BAD DATA**"]
      let d := s.diags ++ (areRowValuesAcceptable csvRow currency withdrawCurrency nativeCurrency "GBP" kind "crypto_withdrawal" "" "").2 ++ [Diag.badValueSeen "Withdraw *"]
      RunResult.ok { s with output := outAppend s.output currency entry, diags := d }

/-- The "To +..." outbound-transfer branch of the Crypto.com row loop
(convert-cdc.go lines 246-257). -/
def toPlusCase (csvRow : Nat)
    (exchangeTime ukTime currency amount nativeCurrency nativeAmount kind : String)
    (s : St) : RunResult St :=
  if (areRowValuesAcceptable csvRow currency "CRO" nativeCurrency "GBP" kind "crypto_transfer" "" "").1 then
    let entry := ["", "crypto.com App", exchangeTime, ukTime, amount, "", "", "", nativeAmount, "", "", "", "", "TRANSFER-OUT"]
    let d := s.diags ++ (areRowValuesAcceptable csvRow currency "CRO" nativeCurrency "GBP" kind "crypto_transfer" "" "").2
    RunResult.ok { s with output := outAppend s.output currency entry, diags := d }
  else
    let entry := ["***BAD DATA***", "crypto.com App", exchangeTime, ukTime, amount, "", "", "", nativeAmount, "", "", "", "", "TRANSFER-OUT **BAD DATA**"]
    let d := s.diags ++ (areRowValuesAcceptable csvRow currency "CRO" nativeCurrency "GBP" kind "crypto_transfer" "" "").2 ++ [Diag.badValueSeen "To +"]
    RunResult.ok { s with output := outAppend s.output currency entry, diags := d }

/-- The "From +..." inbound-transfer branch of the Crypto.com row loop
(convert-cdc.go lines 258-269). -/
def fromPlusCase (csvRow : Nat)
    (exchangeTime ukTime currency amount nativeCurrency nativeAmount kind : String)
    (s : St) : RunResult St :=
  if (areRowValuesAcceptable csvRow currency "CRO" nativeCurrency "GBP" kind "crypto_transfer" "" "").1 then
    let entry := ["", "crypto.com App", exchangeTime, ukTime, amount, "", "", "", nativeAmount, "", "", "", "", "TRANSFER-IN"]
    let d := s.diags ++ (areRowValuesAcceptable csvRow currency "CRO" nativeCurrency "GBP" kind "crypto_transfer" "" "").2
    RunResult.ok { s with output := outAppend s.output currency entry, diags := d }
  else
    let entry := ["***BAD DATA***", "crypto.com App", exchangeTime, ukTime, amount, "", "", "", nativeAmount, "", "", "", "", "TRANSFER-IN **BAD DATA**"]
    let d := s.diags ++ (areRowValuesAcceptable csvRow currency "CRO" nativeCurrency "GBP" kind "crypto_transfer" "" "").2 ++ [Diag.badValueSeen "From +"]
    RunResult.ok { s with output := outAppend s.output currency entry, diags := d }

/-- The "Pay Rewards" branch of the Crypto.com row loop (convert-cdc.go
lines 270-281). -/
def payRewardsCase (csvRow : Nat)
    (exchangeTime ukTime currency amount nativeCurrency nativeAmount kind : String)
    (s : St) : RunResult St :=
  if (areRowValuesAcceptable csvRow currency "CRO" nativeCurrency "GBP" kind "transfer_cashback" "" "").1 then
    let entry := ["", "crypto.com App", exchangeTime, ukTime, amount, "", "", "", nativeAmount, "", "", "", "", "REWARD"]
    let d := s.diags ++ (areRowValuesAcceptable csvRow currency "CRO" nativeCurrency "GBP" kind "transfer_cashback" "" "").2
    RunResult.ok { s with output := outAppend s.output currency entry, diags := d }
  else
    let entry := ["***BAD DATA***", "crypto.com App", exchangeTime, ukTime, amount, "", "", "", nativeAmount, "", "", "", "", "REWARD **BAD DATA**"]
    let d := s.diags ++ (areRowValuesAcceptable csvRow currency "CRO" nativeCurrency "GBP" kind "transfer_cashback" "" "").2 ++ [Diag.badValueSeen "Pay Rewards"]
    RunResult.ok { s with output := outAppend s.output currency entry, diags := d }

/-- The fall-through branch of the Crypto.com row loop (convert-cdc.go
lines 282-286): an `***INVALID***` record for an unrecognised
description. -/
def unrecognisedCase (exchangeTime ukTime description currency amount
    nativeAmount : String) (s : St) : RunResult St :=
  let entry := ["***UNRECOGNISED***", "crypto.com App", exchangeTime, ukTime, amount, "", "", "", nativeAmount, "", "", "", "", "***INVALID***"]
  let d := s.diags ++ [Diag.cdcUnrecognised description]
  RunResult.ok { s with output := outAppend s.output currency entry, diags := d }

/-- The second half of the Crypto.com description if-else chain
(convert-cdc.go lines 204-286), from "Card Cashback" down to the
unrecognised fall-through. -/
def stepRest (csvRow : Nat)
    (exchangeTime ukTime description currency amount nativeCurrency nativeAmount
     kind : String) (s : St) : RunResult St :=
  if description = "Card Cashback" then
    cardCashbackCase csvRow exchangeTime ukTime currency amount
      nativeCurrency nativeAmount kind s
  else if description = "Crypto Earn" then
    cryptoEarnCase exchangeTime ukTime currency amount nativeAmount s
  else if description = "Card Cashback Reversal" then
    cashbackReversalCase csvRow exchangeTime ukTime currency amount
      nativeCurrency nativeAmount kind s
  else if strStartsWith description "Withdraw " then
    withdrawCase csvRow exchangeTime ukTime description currency amount
      nativeCurrency nativeAmount kind s
  else if strStartsWith description "To +" then
    toPlusCase csvRow exchangeTime ukTime currency amount
      nativeCurrency nativeAmount kind s
  else if strStartsWith description "From +" then
    fromPlusCase csvRow exchangeTime ukTime currency amount
      nativeCurrency nativeAmount kind s
  else if description = "Pay Rewards" then
    payRewardsCase csvRow exchangeTime ukTime currency amount
      nativeCurrency nativeAmount kind s
  else
    unrecognisedCase exchangeTime ukTime description currency amount
      nativeAmount s

/-- One iteration of the row loop of the Crypto.com
`convertTransactions` (convert-cdc.go lines 82-283): an if-else chain
on the transaction description, factored into one function per branch
with the tail of the chain in `stepRest`. -/
def step (uk : String → String) (csvRow : Nat) (row : Row) (s : St) : RunResult St := do
  let exchangeTime ← getF row 0
  let description ← getF row 1
  let currency ← getF row 2
  let amount ← getF row 3
  let toCurrency ← getF row 4
  let toAmount ← getF row 5
  let nativeCurrency ← getF row 6
  let nativeAmount ← getF row 7
  let kind ← getF row 9
  if description = "Sign-up Bonus Unlocked" then
    signupBonusCase csvRow exchangeTime (uk exchangeTime) currency amount
      nativeCurrency nativeAmount kind s
  else if description = "Crypto Earn Deposit" then
    pure s
  else if description = "Crypto Earn Withdrawal" then
    earnWithdrawalCase csvRow exchangeTime (uk exchangeTime) currency amount
      nativeCurrency nativeAmount kind s
  else if strEndsWith description " Deposit" then
    depositCase csvRow exchangeTime (uk exchangeTime) description currency amount
      nativeCurrency nativeAmount kind s
  else if strContainsSub description " -> " then
    exchangeCase csvRow exchangeTime (uk exchangeTime) description currency amount
      toCurrency toAmount nativeCurrency nativeAmount kind s
  else if description = "CRO Stake Rewards" then
    stakeRewardsCase csvRow exchangeTime (uk exchangeTime) currency amount
      nativeCurrency nativeAmount kind s
  else if description = "CRO Stake" then
    croStakeCase csvRow exchangeTime (uk exchangeTime) currency amount
      nativeCurrency nativeAmount kind s
  else if description = "CRO Unstake" then
    croUnstakeCase csvRow exchangeTime (uk exchangeTime) currency amount
      nativeCurrency nativeAmount kind s
  else
    stepRest csvRow exchangeTime (uk exchangeTime) description currency amount
      nativeCurrency nativeAmount kind s

/-- The expected header of the Crypto.com export. -/
def expectedFirstRow : List String :=
  ["Timestamp (UTC)", "Transaction Description", "Currency", "Amount", "To Currency",
   "To Amount", "Native Currency", "Native Amount", "Native Amount (in USD)",
   "Transaction Kind", "Transaction Hash"]

/-- The row loop of the Crypto.com `convertTransactions`. -/
def runRows (uk : String → String) : List Row → Nat → St → RunResult St
  | [], _, s => RunResult.ok s
  | row :: rest, idx, s => do
    let s1 ← step uk idx row s
    runRows uk rest (idx + 1) s1

/-- The final presentation pass of the Crypto.com converter: sort the
currency keys, reverse each group (the input was in reverse time order)
and emit it behind two blank rows and a banner row, with a trailing
blank row. -/
def finalize (out : List (String × List Row)) : List Row :=
  let currencies := Kraken.sortStrings (out.map (fun p => p.1))
  currencies.foldl
    (fun acc c =>
      let data := ((alFind out c).getD []).reverse
      acc ++ [["", ""], ["", ""], [c, "Data for a fixed currency"]] ++ data ++
        [["", ""]])
    []

/-- `convertTransactions` of convert-cdc.go: check the header row, run
the row loop from CSV row index 2, and group the output by currency. -/
def convertTransactions (uk : String → String) (transactions : List Row) :
    RunResult (List Row × List Diag) :=
  match transactions.get? 0 with
  | none => RunResult.panic
  | some firstRow =>
    if (testSlicesEqual firstRow expectedFirstRow).1 then do
      let s ← runRows uk (transactions.drop 1) 2 St.init
      pure (finalize s.output, s.diags)
    else RunResult.fatal Diag.firstRowFailsToMatch

end Cdc

end DataProc

namespace DataProc

/-! ### Generic lemmas about the embedding -/

@[simp] theorem bind_ok {α β : Type} (a : α) (f : α → RunResult β) :
    (RunResult.ok a >>= f) = f a := rfl

@[simp] theorem bind_fatal {α β : Type} (d : Diag) (f : α → RunResult β) :
    (RunResult.fatal d >>= f) = RunResult.fatal d := rfl

@[simp] theorem bind_panic {α β : Type} (f : α → RunResult β) :
    ((RunResult.panic : RunResult α) >>= f) = RunResult.panic := rfl

@[simp] theorem getF_eq (r : Row) (i : Nat) :
    getF r i = match r.get? i with
      | some v => RunResult.ok v
      | none => RunResult.panic := rfl

end DataProc

namespace DataProc

/-! ### Claim C1 -/

/-- C1 (counterexample): processing a Kraken input whose only data row
is a 'receive' with a reference id that has no pending spend produces an
output file with NO records at all — only the no-matching-spend
diagnostic is printed — contradicting the claim that such a row is
still emitted as a BAD-DATA BUY. -/
theorem claim_C1_counterexample :
    Kraken.convertTransactions (fun _ _ => none) (fun t => t)
      [Kraken.expectedFirstRow,
       ["T1", "R1", "2021-01-01 10:00:00", "receive", "", "currency", "BTC",
        "0.5", "0", "1.0"]] =
    RunResult.ok ([], [Diag.receiveNoMatchingSpend 2]) := by decide

/-- C1 (amended): for every 'receive' row whose reference id has no
entry in the pending-spends map, processing the row emits NO output
record: the only effect is the printed diagnostic (and the unconditional
row-values check); the output map and all pending maps are unchanged. -/
theorem claim_C1_amended
    (ord : List (String × Kraken.Ledger) → List (String × Kraken.Ledger))
    (price : String → String → Option String) (uk : String → String)
    (e : Kraken.Ledger) (s : Kraken.St)
    (hfmt : e.format = "receive")
    (hfind : alFind s.pendingSpends e.refid = none) :
    Kraken.stepWith ord price uk e s =
      RunResult.ok { s with diags := (s.diags ++ (Kraken.areRowValuesAcceptable e).2) ++
        [Diag.receiveNoMatchingSpend e.row] } := by
  simp [Kraken.stepWith, Kraken.receiveCase, hfmt, hfind]

/-- C1 (witness): the amended theorem applied at a concrete receive row
with an unknown reference id. -/
theorem claim_C1_witness :
    Kraken.stepWith (fun l => l) (fun _ _ => none) (fun t => t)
      { row := 2, txid := "T1", refid := "R1", time := "2021-01-01 10:00:00"
        format := "receive", subtype := "", aclass := "currency", asset := "BTC"
        amount := "0.5", fee := "0", balance := "1.0" } Kraken.St.init =
    RunResult.ok { Kraken.St.init with diags := [Diag.receiveNoMatchingSpend 2] } :=
  claim_C1_amended (fun l => l) (fun _ _ => none) (fun t => t) _ _ rfl rfl

end DataProc

namespace DataProc

/-! ### Claim C2 -/

/-- C2 (counterexample): a token deposit pair whose second (txid- and
balance-bearing) row differs from the stored pending token-deposit in
its amount produces an output file with NO records — the mismatch
diagnostic is printed and processing continues, but no TRANSFER-IN
(BAD DATA or otherwise) is emitted, contradicting the claim. -/
theorem claim_C2_counterexample :
    Kraken.convertTransactions (fun _ _ => none) (fun t => t)
      [Kraken.expectedFirstRow,
       ["", "D1", "2021-01-01 10:00:00", "deposit", "", "currency", "ADA",
        "5", "0", ""],
       ["TX", "D1", "2021-01-01 10:05:00", "deposit", "", "currency", "ADA",
        "6", "0", "11"]] =
    RunResult.ok ([], [Diag.tokenDepositMismatch 2 3]) := by decide

/-- C2 (amended): for every second (txid-bearing) deposit row of a token
whose stored pending token-deposit has a differing asset, amount or fee,
processing prints a diagnostic and continues (no abort), but emits NO
output record for that deposit; the pending maps are unchanged (the
matched pending entry is not even removed). -/
theorem claim_C2_amended
    (ord : List (String × Kraken.Ledger) → List (String × Kraken.Ledger))
    (price : String → String → Option String) (uk : String → String)
    (e prev : Kraken.Ledger) (s : Kraken.St)
    (hfmt : e.format = "deposit")
    (hfiat : Kraken.isFiatCurrency e.asset = false)
    (hsuf : strEndsWith e.asset ".S" = false)
    (hrow : (Kraken.areRowValuesAcceptable e).1 = true)
    (htx : e.txid ≠ "") (hbal : e.balance ≠ "")
    (hfind : alFind s.pendingTokenDeposits e.refid = some prev)
    (hmis : e.asset ≠ prev.asset ∨ e.amount ≠ prev.amount ∨ e.fee ≠ prev.fee) :
    Kraken.stepWith ord price uk e s =
      RunResult.ok { s with diags := (s.diags ++ (Kraken.areRowValuesAcceptable e).2) ++
        [Diag.tokenDepositMismatch prev.row e.row] } := by
  simp [Kraken.stepWith, Kraken.depositCase, hfmt, hfiat, hsuf, hrow, hfind, htx,
    hbal, hmis]

/-- C2 (witness): the amended theorem applied to a concrete mismatching
token-deposit pair. -/
theorem claim_C2_witness :
    Kraken.stepWith (fun l => l) (fun _ _ => none) (fun t => t)
      { row := 3, txid := "TX", refid := "D1", time := "2021-01-01 10:05:00"
        format := "deposit", subtype := "", aclass := "currency", asset := "ADA"
        amount := "6", fee := "0", balance := "11" }
      { Kraken.St.init with pendingTokenDeposits :=
          [("D1", { row := 2, txid := "", refid := "D1"
                    time := "2021-01-01 10:00:00", format := "deposit"
                    subtype := "", aclass := "currency", asset := "ADA"
                    amount := "5", fee := "0", balance := "" })] } =
    RunResult.ok
      { Kraken.St.init with
        pendingTokenDeposits :=
          [("D1", { row := 2, txid := "", refid := "D1"
                    time := "2021-01-01 10:00:00", format := "deposit"
                    subtype := "", aclass := "currency", asset := "ADA"
                    amount := "5", fee := "0", balance := "" })],
        diags := [Diag.tokenDepositMismatch 2 3] } :=
  claim_C2_amended (fun l => l) (fun _ _ => none) (fun t => t)
    { row := 3, txid := "TX", refid := "D1", time := "2021-01-01 10:05:00"
      format := "deposit", subtype := "", aclass := "currency", asset := "ADA"
      amount := "6", fee := "0", balance := "11" }
    { row := 2, txid := "", refid := "D1", time := "2021-01-01 10:00:00"
      format := "deposit", subtype := "", aclass := "currency", asset := "ADA"
      amount := "5", fee := "0", balance := "" }
    { Kraken.St.init with pendingTokenDeposits :=
        [("D1", { row := 2, txid := "", refid := "D1"
                  time := "2021-01-01 10:00:00", format := "deposit"
                  subtype := "", aclass := "currency", asset := "ADA"
                  amount := "5", fee := "0", balance := "" })] }
    rfl (by decide) (by decide) (by decide) (by decide) (by decide) (by decide)
    (by decide)

/-! ### Claim C3 -/

/-- C3 (code bug): the guard protecting the `WithdrawExchanged` FIFO pop
reads `len(exchangeToWithdraw) < 0`, which no state can satisfy, so the
no-matching-ExchangeToWithdraw diagnostic is unreachable and the
converter evaluates `exchangeToWithdraw[0]` on an empty FIFO: processing
a valid `WithdrawExchanged` row with an empty FIFO is a runtime panic,
not a diagnostic-and-continue. -/
theorem claim_C3_bug :
    (∀ s : Nexo.St, ¬ ((s.fifo.length : Int) < 0)) ∧
    Nexo.convertTransactions ⟨fun _ _ => false, fun _ _ => false⟩
      [["TX1", "WithdrawExchanged", "GBP", "-9.99", "GBP", "9.99", "$12",
        "approved / GBP withdrawal", "$0.00", "2021-01-01 00:00:00"]] =
    RunResult.panic := by
  constructor
  · intro s
    exact not_lt.mpr (Int.natCast_nonneg _)
  · decide

/-! ### Claim C5 -/

/-- C5: for every deposit row whose asset is on the fiat allow-list,
processing the row emits no output record and leaves all four
pending-match maps unchanged — the only effect on the state is the
diagnostics of the unconditional row-values check. -/
theorem claim_C5
    (ord : List (String × Kraken.Ledger) → List (String × Kraken.Ledger))
    (price : String → String → Option String) (uk : String → String)
    (e : Kraken.Ledger) (s : Kraken.St)
    (hfmt : e.format = "deposit")
    (hfiat : Kraken.isFiatCurrency e.asset = true) :
    Kraken.stepWith ord price uk e s =
      RunResult.ok { s with diags := s.diags ++ (Kraken.areRowValuesAcceptable e).2 } := by
  simp [Kraken.stepWith, Kraken.depositCase, hfmt, hfiat]

/-- C5 (witness): a concrete ZGBP deposit row leaves the state unchanged
apart from (empty) check diagnostics. -/
theorem claim_C5_witness :
    Kraken.stepWith (fun l => l) (fun _ _ => none) (fun t => t)
      { row := 2, txid := "", refid := "F1", time := "2021-01-01 10:00:00"
        format := "deposit", subtype := "", aclass := "currency", asset := "ZGBP"
        amount := "100.00", fee := "0", balance := "" } Kraken.St.init =
    RunResult.ok Kraken.St.init :=
  claim_C5 (fun l => l) (fun _ _ => none) (fun t => t) _ _ rfl rfl

/-! ### Claim C6 -/

/-- C6: (a) a deposit of a staking-suffixed asset whose reference id is
not yet pending is stored in the pending staking-deposits map and emits
nothing; (b) a transfer with subtype "stakingfromspot" whose reference
id is present in the pending staking-deposits map removes that entry
and emits no output record — the output map is untouched. -/
theorem claim_C6
    (ord : List (String × Kraken.Ledger) → List (String × Kraken.Ledger))
    (price : String → String → Option String) (uk : String → String) :
    (∀ (e : Kraken.Ledger) (s : Kraken.St), e.format = "deposit" →
      Kraken.isFiatCurrency e.asset = false → strEndsWith e.asset ".S" = true →
      alFind s.pendingStakingDeposits e.refid = none →
      Kraken.stepWith ord price uk e s =
        RunResult.ok { s with
          pendingStakingDeposits := alInsert s.pendingStakingDeposits e.refid e,
          diags := s.diags ++ (Kraken.areRowValuesAcceptable e).2 }) ∧
    (∀ (e prev : Kraken.Ledger) (s : Kraken.St), e.format = "transfer" →
      e.subtype = "stakingfromspot" →
      alFind s.pendingStakingDeposits e.refid = some prev →
      Kraken.stepWith ord price uk e s =
        RunResult.ok { s with
          pendingStakingDeposits := alErase s.pendingStakingDeposits e.refid,
          diags := s.diags ++ (Kraken.areRowValuesAcceptable e).2 }) := by
  constructor
  · intro e s hfmt hfiat hsuf hfind
    simp [Kraken.stepWith, Kraken.depositCase, hfmt, hfiat, hsuf, hfind]
  · intro e prev s hfmt hsub hfind
    simp [Kraken.stepWith, Kraken.transferCase, hfmt, hsub, hfind]

/-- C6 (witness): a concrete FLOW.S staking deposit is stored pending,
and the matching "stakingfromspot" transfer removes it without output. -/
theorem claim_C6_witness :
    (Kraken.stepWith (fun l => l) (fun _ _ => none) (fun t => t)
      { row := 2, txid := "", refid := "S1", time := "2021-01-01 10:00:00"
        format := "deposit", subtype := "", aclass := "currency", asset := "FLOW.S"
        amount := "10", fee := "0", balance := "" } Kraken.St.init =
    RunResult.ok { Kraken.St.init with
      pendingStakingDeposits :=
        [("S1", { row := 2, txid := "", refid := "S1"
                  time := "2021-01-01 10:00:00", format := "deposit", subtype := ""
                  aclass := "currency", asset := "FLOW.S", amount := "10"
                  fee := "0", balance := "" })] }) ∧
    (Kraken.stepWith (fun l => l) (fun _ _ => none) (fun t => t)
      { row := 3, txid := "T3", refid := "S1", time := "2021-01-01 10:01:00"
        format := "transfer", subtype := "stakingfromspot", aclass := "currency"
        asset := "FLOW.S", amount := "10", fee := "0", balance := "10" }
      { Kraken.St.init with
        pendingStakingDeposits :=
          [("S1", { row := 2, txid := "", refid := "S1"
                    time := "2021-01-01 10:00:00", format := "deposit", subtype := ""
                    aclass := "currency", asset := "FLOW.S", amount := "10"
                    fee := "0", balance := "" })] } =
    RunResult.ok Kraken.St.init) := by
  constructor
  · exact (claim_C6 (fun l => l) (fun _ _ => none) (fun t => t)).1 _ _
      rfl rfl rfl rfl
  · exact (claim_C6 (fun l => l) (fun _ _ => none) (fun t => t)).2 _ _ _
      rfl rfl rfl

/-! ### Claim C10 -/

/-- C10: the Kraken `convertTransactions` reads `transactions[0]` and
`transactions[1][2]` with no minimum-row-count guard, so an empty input
panics and an input consisting of only the (correct) header row panics;
the Nexo converter instead rejects every input of fewer than two rows
with a fatal diagnostic before any conversion takes place. -/
theorem claim_C10
    (ords : Nat → List (String × Kraken.Ledger) → List (String × Kraken.Ledger))
    (ord2 : List (String × List Row) → List (String × List Row))
    (ord3 : List (String × String) → List (String × String))
    (price : String → String → Option String) (uk : String → String) :
    Kraken.convertTransactionsWith ords ord2 ord3 price uk [] = RunResult.panic ∧
    Kraken.convertTransactionsWith ords ord2 ord3 price uk
      [Kraken.expectedFirstRow] = RunResult.panic ∧
    (∀ (fo : Nexo.FloatOracle) (t : List Row), t.length < 2 →
      Nexo.mainModel fo t = RunResult.fatal (Diag.nexoTooFewRows t.length)) := by
  refine ⟨rfl, rfl, ?_⟩
  intro fo t ht
  simp [Nexo.mainModel, ht]

/-- C10 (witness): the theorem applied at concrete iteration orders and
a concrete too-short Nexo input. -/
theorem claim_C10_witness :
    Kraken.convertTransactionsWith (fun _ l => l) (fun l => l) (fun l => l)
      (fun _ _ => none) (fun t => t) [] = RunResult.panic ∧
    Nexo.mainModel ⟨fun _ _ => false, fun _ _ => false⟩ [Nexo.expectedFirstRow] =
      RunResult.fatal (Diag.nexoTooFewRows 1) := by
  constructor
  · exact (claim_C10 (fun _ l => l) (fun l => l) (fun l => l)
      (fun _ _ => none) (fun t => t)).1
  · exact (claim_C10 (fun _ l => l) (fun l => l) (fun l => l)
      (fun _ _ => none) (fun t => t)).2.2 _ _ (by decide)

end DataProc

namespace DataProc

/-! ### Claim C8 -/

@[simp] theorem pure_eq_ok {α : Type} (a : α) :
    (pure a : RunResult α) = RunResult.ok a := rfl

/-- The shared header check prints at most one diagnostic: it returns at
the first difference (or reports only the two lengths). -/
theorem testSlicesEqual_go_diag_len :
    ∀ (i : Nat) (xs ys : List String), (testSlicesEqual.go i xs ys).2.length ≤ 1
  | _, [], _ => by simp [testSlicesEqual.go]
  | _, _ :: _, [] => by simp [testSlicesEqual.go]
  | i, x :: xs, y :: ys => by
    by_cases h : x ≠ y
    · simp [testSlicesEqual.go, h]
    · simpa [testSlicesEqual.go, h] using testSlicesEqual_go_diag_len (i + 1) xs ys

/-- The header check prints at most one diagnostic overall. -/
theorem testSlicesEqual_diag_len (a b : List String) :
    (testSlicesEqual a b).2.length ≤ 1 := by
  unfold testSlicesEqual
  by_cases h : a.length ≠ b.length
  · simp [h]
  · simpa [h] using testSlicesEqual_go_diag_len 0 a b

/-- Every differing column is reported by the Nexo per-column header
report loop. -/
theorem headerReportLoop_mem :
    ∀ (j : Nat) (fr : List String) (ds : List Diag),
      Nexo.headerReportLoop j fr = RunResult.ok ds →
      ∀ (i : Nat) (a e' : String), fr.get? i = some a →
        Nexo.expectedFirstRow.get? (j + i) = some e' → a ≠ e' →
        Diag.nexoHeaderMismatchAt (j + i) a e' ∈ ds
  | _, [], _, _, i, _, _, hget, _, _ => by simp at hget
  | j, a0 :: rest, ds, hrun, i, a, e', hget, hexp, hne => by
    unfold Nexo.headerReportLoop at hrun
    cases hE : Nexo.expectedFirstRow.get? j with
    | none => rw [hE] at hrun; exact absurd hrun (by simp)
    | some e0 =>
      rw [hE] at hrun
      cases hL : Nexo.headerReportLoop (j + 1) rest with
      | fatal d => rw [hL] at hrun; simp at hrun
      | panic => rw [hL] at hrun; simp at hrun
      | ok ds0 =>
        rw [hL] at hrun
        simp only [bind_ok, pure_eq_ok] at hrun
        cases i with
        | zero =>
          simp only [List.get?] at hget
          cases hget
          rw [Nat.add_zero] at hexp ⊢
          rw [hE] at hexp
          cases hexp
          rw [if_pos hne] at hrun
          cases hrun
          exact List.mem_cons_self _ _
        | succ i0 =>
          have hrec := headerReportLoop_mem (j + 1) rest ds0 hL i0 a e'
            (by simpa using hget) (by rw [← hexp]; congr 1; omega) hne
          have hmem : Diag.nexoHeaderMismatchAt (j + 1 + i0) a e' ∈ ds := by
            by_cases h0 : a0 ≠ e0
            · rw [if_pos h0] at hrun
              cases hrun
              exact List.mem_cons_of_mem _ hrec
            · rw [if_neg h0] at hrun
              cases hrun
              exact List.mem_cons_of_mem _ hrec
          have harith : j + 1 + i0 = j + (i0 + 1) := by omega
          rwa [harith] at hmem

set_option maxRecDepth 8192 in
/-- C8 (counterexample): a Kraken header that differs from the expected
schema in BOTH column 1 and column 3 aborts with a diagnostic naming
only column 1 — the abort diagnostic does not list each differing
column. -/
theorem claim_C8_counterexample :
    testSlicesEqual
      ["txid", "REF", "time", "TYPE", "subtype", "aclass", "asset", "amount",
       "fee", "balance"] Kraken.expectedFirstRow =
      (false, [Diag.sliceMismatch 1 "REF" "refid"]) ∧
    (["txid", "REF", "time", "TYPE", "subtype", "aclass", "asset", "amount",
      "fee", "balance"] : List String).get? 3 ≠ Kraken.expectedFirstRow.get? 3 ∧
    Kraken.convertTransactions (fun _ _ => none) (fun t => t)
      [["txid", "REF", "time", "TYPE", "subtype", "aclass", "asset", "amount",
        "fee", "balance"],
       ["T1", "R1", "2021-01-01 10:00:00", "spend", "", "currency", "ZGBP",
        "-1", "0", "1"]] = RunResult.fatal Diag.firstRowFailsToMatch := by
  refine ⟨by decide, by decide, by decide⟩

/-- C8 (amended): a first row that differs from the expected header
schema aborts the run fatally before any row is classified, in all
three converters; the Nexo converter's report lists every differing
column, but the Kraken and Crypto.com converters (which share
`testSlicesEqual`) print at most one diagnostic, naming only the first
difference. -/
theorem claim_C8_amended :
    (∀ ords ord2 ord3 price uk (t : List Row) (fr : Row), t.get? 0 = some fr →
      (testSlicesEqual fr Kraken.expectedFirstRow).1 = false →
      Kraken.convertTransactionsWith ords ord2 ord3 price uk t =
        RunResult.fatal Diag.firstRowFailsToMatch) ∧
    (∀ uk (t : List Row) (fr : Row), t.get? 0 = some fr →
      (testSlicesEqual fr Cdc.expectedFirstRow).1 = false →
      Cdc.convertTransactions uk t = RunResult.fatal Diag.firstRowFailsToMatch) ∧
    (∀ a b : List String, (testSlicesEqual a b).2.length ≤ 1) ∧
    (∀ (fo : Nexo.FloatOracle) (t : List Row) (fr : Row) (ds : List Diag),
      2 ≤ t.length → t.get? 0 = some fr →
      (testSlicesEqual fr Nexo.expectedFirstRow).1 = false →
      Nexo.headerReportLoop 0 fr = RunResult.ok ds →
      Nexo.mainModel fo t = RunResult.fatal Diag.nexoHeaderFatal ∧
      (∀ (i : Nat) (a e' : String), fr.get? i = some a →
        Nexo.expectedFirstRow.get? i = some e' → a ≠ e' →
        Diag.nexoHeaderMismatchAt i a e' ∈ ds)) := by
  refine ⟨?_, ?_, testSlicesEqual_diag_len, ?_⟩
  · intro ords ord2 ord3 price uk t fr hget hbad
    unfold Kraken.convertTransactionsWith
    rw [hget]
    simp [hbad]
  · intro uk t fr hget hbad
    unfold Cdc.convertTransactions
    rw [hget]
    simp [hbad]
  · intro fo t fr ds hlen hget hbad hloop
    constructor
    · have hnl : ¬ t.length < 2 := by omega
      unfold Nexo.mainModel
      rw [if_neg hnl, hget]
      simp [hbad, hloop]
    · intro i a e' hgi hei hne
      simpa using headerReportLoop_mem 0 fr ds hloop i a e' hgi (by simpa using hei) hne

/-- C8 (witness): the amended theorem applied to a concrete mismatching
Kraken header and a concrete mismatching Nexo header. -/
theorem claim_C8_witness :
    Kraken.convertTransactionsWith (fun _ l => l) (fun l => l) (fun l => l)
      (fun _ _ => none) (fun t => t)
      [["txid", "REF", "time", "TYPE", "subtype", "aclass", "asset", "amount",
        "fee", "balance"]] = RunResult.fatal Diag.firstRowFailsToMatch ∧
    Nexo.mainModel ⟨fun _ _ => false, fun _ _ => false⟩
      [["BAD", "Type", "Input Currency", "Input Amount", "Output Currency",
        "Output Amount", "USD Equivalent", "Details", "Outstanding Loan", "WRONG"],
       ["x", "y", "z", "w", "v", "u", "t", "s", "r", "q"]] =
      RunResult.fatal Diag.nexoHeaderFatal ∧
    Diag.nexoHeaderMismatchAt 9 "WRONG" "Date / Time" ∈
      [Diag.nexoHeaderMismatchAt 0 "BAD" "Transaction", Diag.nexoHeaderMatchAt 1,
       Diag.nexoHeaderMatchAt 2, Diag.nexoHeaderMatchAt 3, Diag.nexoHeaderMatchAt 4,
       Diag.nexoHeaderMatchAt 5, Diag.nexoHeaderMatchAt 6, Diag.nexoHeaderMatchAt 7,
       Diag.nexoHeaderMatchAt 8, Diag.nexoHeaderMismatchAt 9 "WRONG" "Date / Time"] := by
  refine ⟨?_, ?_, ?_⟩
  · exact claim_C8_amended.1 (fun _ l => l) (fun l => l) (fun l => l)
      (fun _ _ => none) (fun t => t) _
      ["txid", "REF", "time", "TYPE", "subtype", "aclass", "asset", "amount",
       "fee", "balance"] rfl (by decide)
  · exact ((claim_C8_amended.2.2.2 ⟨fun _ _ => false, fun _ _ => false⟩
      [["BAD", "Type", "Input Currency", "Input Amount", "Output Currency",
        "Output Amount", "USD Equivalent", "Details", "Outstanding Loan", "WRONG"],
       ["x", "y", "z", "w", "v", "u", "t", "s", "r", "q"]]
      ["BAD", "Type", "Input Currency", "Input Amount", "Output Currency",
       "Output Amount", "USD Equivalent", "Details", "Outstanding Loan", "WRONG"]
      [Diag.nexoHeaderMismatchAt 0 "BAD" "Transaction", Diag.nexoHeaderMatchAt 1,
       Diag.nexoHeaderMatchAt 2, Diag.nexoHeaderMatchAt 3, Diag.nexoHeaderMatchAt 4,
       Diag.nexoHeaderMatchAt 5, Diag.nexoHeaderMatchAt 6, Diag.nexoHeaderMatchAt 7,
       Diag.nexoHeaderMatchAt 8, Diag.nexoHeaderMismatchAt 9 "WRONG" "Date / Time"]
      (by decide) rfl (by decide) (by decide))).1
  · exact ((claim_C8_amended.2.2.2 ⟨fun _ _ => false, fun _ _ => false⟩
      [["BAD", "Type", "Input Currency", "Input Amount", "Output Currency",
        "Output Amount", "USD Equivalent", "Details", "Outstanding Loan", "WRONG"],
       ["x", "y", "z", "w", "v", "u", "t", "s", "r", "q"]]
      ["BAD", "Type", "Input Currency", "Input Amount", "Output Currency",
       "Output Amount", "USD Equivalent", "Details", "Outstanding Loan", "WRONG"]
      [Diag.nexoHeaderMismatchAt 0 "BAD" "Transaction", Diag.nexoHeaderMatchAt 1,
       Diag.nexoHeaderMatchAt 2, Diag.nexoHeaderMatchAt 3, Diag.nexoHeaderMatchAt 4,
       Diag.nexoHeaderMatchAt 5, Diag.nexoHeaderMatchAt 6, Diag.nexoHeaderMatchAt 7,
       Diag.nexoHeaderMatchAt 8, Diag.nexoHeaderMismatchAt 9 "WRONG" "Date / Time"]
      (by decide) rfl (by decide) (by decide))).2 9 "WRONG" "Date / Time"
      (by decide) (by decide) (by decide)

end DataProc

namespace DataProc

/-! ### Claim C4: spec-side pence arithmetic -/

/-- Spec-side well-formedness of a decimal amount string: an optional
fractional part after a single dot, both parts made of digits. -/
def decimalWF (s : String) : Bool :=
  match splitOnDot s with
  | [ip] => ip.data.all Char.isDigit
  | [ip, fp] => ip.data.all Char.isDigit && fp.data.all Char.isDigit
  | _ => false

/-- Spec-side numeric value of a decimal amount string, as an exact
rational. -/
def decimalValQ (s : String) : ℚ :=
  match splitOnDot s with
  | [ip] => (digitsVal ip.data : ℚ)
  | [ip, fp] => (digitsVal ip.data : ℚ) + (digitsVal fp.data : ℚ) / 10 ^ fp.data.length
  | _ => 0

/-- The claim's total spend in integer pence: the absolute value of the
spend amount and of its fee are each converted to pence, truncating any
fractional digit beyond the second (the floor of 100 times the value),
then added. -/
def specTotalSpendPence (amount fee : String) : Int :=
  ⌊(100 : ℚ) * decimalValQ (trimLeftMinus amount)⌋ +
  ⌊(100 : ℚ) * decimalValQ (trimLeftMinus fee)⌋

/-- Rendering of a pence total as a pounds.pennies string with a
two-digit pennies field. -/
def penceString (n : Int) : String :=
  toString (n / 100) ++ "." ++ pad2trunc2 (toString (n - n / 100 * 100))

/-- Folding digits over any accumulator is positional. -/
theorem foldl_digitsVal :
    ∀ (l : List Char) (acc : Nat),
      l.foldl (fun a c => a * 10 + digitVal c) acc =
        acc * 10 ^ l.length + digitsVal l
  | [], acc => by simp [digitsVal]
  | c :: l, acc => by
    have h1 := foldl_digitsVal l (acc * 10 + digitVal c)
    have h2 := foldl_digitsVal l (digitVal c)
    have hd : digitsVal (c :: l) = digitVal c * 10 ^ l.length + digitsVal l := by
      unfold digitsVal
      rw [List.foldl_cons]
      have h0 : (0 : Nat) * 10 + digitVal c = digitVal c := by omega
      rw [h0, h2]
      rfl
    rw [List.foldl_cons, h1, hd, List.length_cons, pow_succ]
    ring

/-- Digit strings are positional under append. -/
theorem digitsVal_append (a b : List Char) :
    digitsVal (a ++ b) = digitsVal a * 10 ^ b.length + digitsVal b := by
  unfold digitsVal
  rw [List.foldl_append]
  exact foldl_digitsVal b _

/-- A digit character's value is below ten. -/
theorem digitVal_lt_ten (c : Char) (h : c.isDigit = true) : digitVal c < 10 := by
  unfold Char.isDigit at h
  rw [Bool.and_eq_true] at h
  obtain ⟨-, h2⟩ := h
  have hv : c.val.toNat ≤ 57 :=
    UInt32.toNat_le_of_le (by decide) (by simpa using h2)
  unfold digitVal Char.toNat
  omega

/-- The value of an all-digits string is below the power of ten of its
length. -/
theorem digitsVal_lt :
    ∀ (l : List Char), l.all Char.isDigit = true → digitsVal l < 10 ^ l.length
  | [], _ => by simp [digitsVal]
  | c :: l, h => by
    rw [List.all_cons, Bool.and_eq_true] at h
    have hc := digitVal_lt_ten c h.1
    have hl := digitsVal_lt l h.2
    have hpos : digitsVal (c :: l) = digitVal c * 10 ^ l.length + digitsVal l := by
      unfold digitsVal
      rw [List.foldl_cons]
      simpa using foldl_digitsVal l (digitVal c)
    rw [hpos, List.length_cons, pow_succ]
    nlinarith

/-- `goAtoi` on a non-empty all-digits string yields its positional
value. -/
theorem goAtoi_digits (l : List Char) (hne : l ≠ [])
    (h : l.all Char.isDigit = true) :
    goAtoi (String.mk l) = some ((digitsVal l : Int)) := by
  unfold goAtoi
  match l, hne with
  | c :: rest, _ =>
    have hc : c.isDigit = true := by
      rw [List.all_cons, Bool.and_eq_true] at h
      exact h.1
    have hcm : ¬ (c = '-') := by
      intro he
      rw [he] at hc
      simp [Char.isDigit] at hc
    have hcp : ¬ (c = '+') := by
      intro he
      rw [he] at hc
      simp [Char.isDigit] at hc
    simp only [hcm, hcp, if_false]
    unfold goAtoiCore
    simp [h]

/-- `goAtoi` over the whole-string digit view. -/
theorem goAtoi_digits_str (s : String) (hne : s.data ≠ [])
    (h : s.data.all Char.isDigit = true) :
    goAtoi s = some ((digitsVal s.data : Int)) := by
  cases s with
  | mk l => exact goAtoi_digits l hne h

/-- The pounds field parse: the source substitutes "0" for an empty
pounds part, which has the same digits value. -/
theorem goAtoi_pounds (ip : String) (h : ip.data.all Char.isDigit = true) :
    goAtoi (if ip = "" then "0" else ip) = some ((digitsVal ip.data : Int)) := by
  by_cases he : ip = ""
  · rw [if_pos he, he]
    decide
  · rw [if_neg he]
    refine goAtoi_digits_str ip ?_ h
    intro hd
    apply he
    cases ip with
    | mk l => cases hd; rfl

/-- Floor of one hundred times an integer-plus-fraction decomposition. -/
theorem floor_pence (I F L : ℕ) :
    ⌊(100 : ℚ) * ((I : ℚ) + (F : ℚ) / 10 ^ L)⌋ =
      (I : Int) * 100 + ((100 * F) / 10 ^ L : ℕ) := by
  have h1 : (100 : ℚ) * ((I : ℚ) + (F : ℚ) / 10 ^ L) =
      ((I * 100 : ℤ) : ℚ) + ((100 * F : ℕ) : ℚ) / ((10 ^ L : ℕ) : ℚ) := by
    push_cast
    ring
  rw [h1, Int.floor_int_add, Rat.floor_natCast_div_natCast]
  norm_cast

/-- A take-two truncation of a digit string is its hundredfold value
divided by its power-of-ten length. -/
theorem takeTwo_digitsVal (l : List Char) (h : l.all Char.isDigit = true)
    (hL : 2 < l.length) :
    (100 * digitsVal l) / 10 ^ l.length = digitsVal (l.take 2) := by
  have hsplit : l = l.take 2 ++ l.drop 2 := (List.take_append_drop 2 l).symm
  have hlen2 : (l.take 2).length = 2 := by
    rw [List.length_take]
    omega
  have hdrop : (l.drop 2).all Char.isDigit = true := by
    rw [List.all_eq_true] at h ⊢
    exact fun c hc => h c (List.mem_of_mem_drop hc)
  have hR : digitsVal (l.drop 2) < 10 ^ (l.drop 2).length :=
    digitsVal_lt _ hdrop
  have hval : digitsVal l =
      digitsVal (l.take 2) * 10 ^ (l.drop 2).length + digitsVal (l.drop 2) := by
    conv_lhs => rw [hsplit]
    exact digitsVal_append _ _
  have hlen : l.length = 2 + (l.drop 2).length := by
    rw [List.length_drop]
    omega
  rw [hval, hlen]
  have h10 : (10 : ℕ) ^ (2 + (l.drop 2).length) = 10 ^ (l.drop 2).length * 100 := by
    rw [pow_add]
    ring
  rw [h10]
  have hmul : 100 * (digitsVal (l.take 2) * 10 ^ (l.drop 2).length +
      digitsVal (l.drop 2)) =
      (digitsVal (l.drop 2) + digitsVal (l.take 2) * 10 ^ (l.drop 2).length) * 100 := by
    ring
  rw [hmul, Nat.mul_div_mul_right _ _ (by norm_num : (0:ℕ) < 100)]
  rw [Nat.add_mul_div_right _ _ (Nat.pos_pow_of_pos _ (by norm_num))]
  rw [Nat.div_eq_of_lt hR]
  omega

/-- `goAtoi` applied to "00" (the default pennies field). -/
theorem goAtoi_double_zero : goAtoi "00" = some 0 := rfl

/-- `makePenniesFromGBP` computes, for every well-formed decimal
string, exactly the floor of one hundred times its value: integer pence
with any third-or-later fractional digit truncated; no diagnostics are
printed. -/
theorem makePenniesFromGBP_spec (s : String) (h : decimalWF s = true) :
    Kraken.makePenniesFromGBP s = RunResult.ok (⌊(100 : ℚ) * decimalValQ s⌋, []) := by
  unfold decimalWF at h
  unfold Kraken.makePenniesFromGBP decimalValQ
  cases hsp : splitOnDot s with
  | nil =>
    rw [hsp] at h
    exact Bool.noConfusion h
  | cons ip rest =>
    cases rest with
    | nil =>
      rw [hsp] at h
      replace h : ip.data.all Char.isDigit = true := h
      norm_num [List.headD_cons, List.length_cons, List.length_nil]
      rw [goAtoi_pounds ip h]
      have hfloor : ⌊(100 : ℚ) * ((digitsVal ip.data : ℕ) : ℚ)⌋ =
          (digitsVal ip.data : Int) * 100 + 0 := by
        rw [show (100 : ℚ) * ((digitsVal ip.data : ℕ) : ℚ) =
            (((digitsVal ip.data * 100 : ℕ)) : ℚ) by push_cast; ring]
        rw [Int.floor_natCast]
        push_cast
        ring
      rw [hfloor]
      rfl
    | cons fp rest2 =>
      cases rest2 with
      | cons x xs =>
        rw [hsp] at h
        exact Bool.noConfusion h
      | nil =>
        rw [hsp] at h
        replace h : (ip.data.all Char.isDigit && fp.data.all Char.isDigit) = true := h
        rw [Bool.and_eq_true] at h
        obtain ⟨hip, hfp⟩ := h
        norm_num [List.headD_cons, List.length_cons, List.length_nil,
          List.getD_cons_zero, List.getD_cons_succ]
        rw [goAtoi_pounds ip hip, floor_pence]
        have hslen : fp.length = fp.data.length := rfl
        rw [hslen]
        by_cases h0 : fp.data.length = 0
        · have hd0 : fp.data = [] := List.length_eq_zero.mp h0
          rw [if_pos h0, goAtoi_double_zero]
          simp [hd0, digitsVal]
        · rw [if_neg h0]
          by_cases h1 : fp.data.length = 1
          · rw [if_pos h1]
            have hne : (fp ++ "0").data ≠ [] := by
              rw [String.data_append]
              simp
            have hall : (fp ++ "0").data.all Char.isDigit = true := by
              rw [String.data_append, List.all_append]
              rw [hfp]
              decide
            rw [goAtoi_digits_str _ hne hall]
            have hval : digitsVal (fp ++ "0").data = digitsVal fp.data * 10 := by
              rw [String.data_append, digitsVal_append]
              norm_num [show digitsVal ("0" : String).data = 0 by decide,
                show ("0" : String).data.length = 1 by decide]
            rw [hval, h1]
            have hdiv : (100 * digitsVal fp.data) / 10 ^ 1 = digitsVal fp.data * 10 := by
              norm_num
              omega
            rw [hdiv]
          · rw [if_neg h1]
            by_cases h2 : 2 < fp.data.length
            · rw [if_pos h2]
              have hne : (strTake fp 2).data ≠ [] := by
                unfold strTake
                simp only [String.mk]
                intro hc
                have := congrArg List.length hc
                simp [List.length_take] at this
                omega
              have hall : (strTake fp 2).data.all Char.isDigit = true := by
                unfold strTake
                rw [List.all_eq_true] at hfp ⊢
                exact fun c hc => hfp c (List.take_subset 2 fp.data hc)
              rw [goAtoi_digits_str _ hne hall]
              have hdiv := takeTwo_digitsVal fp.data hfp h2
              have hdata : (strTake fp 2).data = fp.data.take 2 := rfl
              rw [hdata, ← hdiv]
            · rw [if_neg h2]
              have hL2 : fp.data.length = 2 := by omega
              have hne : fp.data ≠ [] := by
                intro hc
                rw [hc] at hL2
                simp at hL2
              rw [goAtoi_digits_str _ hne hfp]
              rw [hL2]
              have hdiv : (100 * digitsVal fp.data) / 10 ^ 2 = digitsVal fp.data := by
                norm_num
              rw [hdiv]

/-- `calculateSpendAsString` renders exactly the claim's total: the
truncating pence value of the absolute amount plus the truncating pence
value of the absolute fee, as a pounds.pennies string. -/
theorem calculateSpendAsString_spec (sp : Kraken.Ledger)
    (ha : decimalWF (trimLeftMinus sp.amount) = true)
    (hf : decimalWF (trimLeftMinus sp.fee) = true) :
    Kraken.calculateSpendAsString sp =
      RunResult.ok (penceString (specTotalSpendPence sp.amount sp.fee), []) := by
  simp only [Kraken.calculateSpendAsString, makePenniesFromGBP_spec _ ha,
    makePenniesFromGBP_spec _ hf]
  rfl

/-- C4: (general part) every matched spend/receive pair with a fiat
(ZGBP) spend, well-formed decimal amount and fee, and well-formed
auxiliary fields emits exactly one BUY record whose total-spend field
(column 8) is the pence-truncated sum of the absolute spend amount and
absolute fee; (particular part) the spend row
(refid A, ZGBP, amount -10.00, fee 0.50) followed by the receive row
(refid A, XXBT, amount 0.001) produces exactly one BUY output for BTC
with total-spend field "10.50". -/
theorem claim_C4 :
    (∀ (ord : List (String × Kraken.Ledger) → List (String × Kraken.Ledger))
       (price : String → String → Option String) (uk : String → String)
       (e spend : Kraken.Ledger) (s : Kraken.St),
      e.format = "receive" →
      alFind s.pendingSpends e.refid = some spend →
      e.txid ≠ "" → e.subtype = "" → e.balance ≠ "" →
      spend.txid ≠ "" → spend.subtype = "" → spend.balance ≠ "" →
      spend.asset = "ZGBP" →
      decimalWF (trimLeftMinus spend.amount) = true →
      decimalWF (trimLeftMinus spend.fee) = true →
      Kraken.stepWith ord price uk e s = RunResult.ok { s with
        output := outAppend s.output e.asset
          ["", "Kraken", e.time, uk e.time, e.amount, "", "", "",
           penceString (specTotalSpendPence spend.amount spend.fee),
           "", "", "", "", "BUY"],
        pendingSpends := alErase s.pendingSpends e.refid,
        diags := s.diags ++ (Kraken.areRowValuesAcceptable e).2 }) ∧
    Kraken.convertTransactions (fun _ _ => none) (fun t => t)
      [Kraken.expectedFirstRow,
       ["TS", "A", "2021-01-01 10:00:00", "spend", "", "currency", "ZGBP",
        "-10.00", "0.50", "5.0"],
       ["TR", "A", "2021-01-01 10:00:01", "receive", "", "currency", "XXBT",
        "0.001", "0", "1.0"]] =
    RunResult.ok
      ([["", ""], ["", ""], ["BTC", "Data for a fixed currency"],
        ["", "Kraken", "2021-01-01 10:00:01", "2021-01-01 10:00:01", "0.001",
         "", "", "", "10.50", "", "", "", "", "BUY"],
        ["", ""]], []) := by
  constructor
  · intro ord price uk e spend s hfmt hfind htx hsub hbal hstx hssub hsbal
      hasset hwa hwf
    have hcalc := calculateSpendAsString_spec spend hwa hwf
    simp [Kraken.stepWith, Kraken.receiveCase, hfmt, hfind, hcalc, htx, hsub,
      hbal, hstx, hssub, hsbal, hasset]
  · decide

/-- C4 (witness): the general part applied to the claim's concrete
spend/receive pair inside an otherwise empty state. -/
theorem claim_C4_witness :
    Kraken.stepWith (fun l => l) (fun _ _ => none) (fun t => t)
      { row := 3, txid := "TR", refid := "A", time := "2021-01-01 10:00:01"
        format := "receive", subtype := "", aclass := "currency", asset := "XXBT"
        amount := "0.001", fee := "0", balance := "1.0" }
      { Kraken.St.init with pendingSpends :=
          [("A", { row := 2, txid := "TS", refid := "A"
                   time := "2021-01-01 10:00:00", format := "spend", subtype := ""
                   aclass := "currency", asset := "ZGBP", amount := "-10.00"
                   fee := "0.50", balance := "5.0" })] } =
    RunResult.ok { Kraken.St.init with
      output := [("XXBT",
        [["", "Kraken", "2021-01-01 10:00:01", "2021-01-01 10:00:01", "0.001",
          "", "", "", penceString (specTotalSpendPence "-10.00" "0.50"),
          "", "", "", "", "BUY"]])],
      pendingSpends := [] } :=
  claim_C4.1 (fun l => l) (fun _ _ => none) (fun t => t)
    { row := 3, txid := "TR", refid := "A", time := "2021-01-01 10:00:01"
      format := "receive", subtype := "", aclass := "currency", asset := "XXBT"
      amount := "0.001", fee := "0", balance := "1.0" }
    { row := 2, txid := "TS", refid := "A", time := "2021-01-01 10:00:00"
      format := "spend", subtype := "", aclass := "currency", asset := "ZGBP"
      amount := "-10.00", fee := "0.50", balance := "5.0" }
    { Kraken.St.init with pendingSpends :=
        [("A", { row := 2, txid := "TS", refid := "A"
                 time := "2021-01-01 10:00:00", format := "spend", subtype := ""
                 aclass := "currency", asset := "ZGBP", amount := "-10.00"
                 fee := "0.50", balance := "5.0" })] }
    rfl rfl (by decide) rfl (by decide) (by decide) rfl (by decide) rfl
    (by decide) (by decide)

/-! ### Claim C7: classification labels -/

@[simp] theorem bind_def {α β : Type} (x : RunResult α) (f : α → RunResult β) :
    (x >>= f) = match x with
      | RunResult.ok a => f a
      | RunResult.fatal d => RunResult.fatal d
      | RunResult.panic => RunResult.panic := rfl

/-- The eight base classification labels the claim names. -/
def baseLabels : List String :=
  ["STAKING", "REWARD", "BUY", "SELL", "CASHBACK", "CASHBACK-REVERSAL",
   "TRANSFER-IN", "TRANSFER-OUT"]

/-- The classification cell of an output record: column 13 in every
record the three converters emit. -/
def labelOf (r : Row) : String := r.getD 13 ""

/-- The claim's vocabulary read as generously as possible: a label is
accepted when any of the eight base labels occurs anywhere inside it,
which covers every BAD-DATA or invalid decoration of a base label. -/
def inClaimedVocabulary (s : String) : Bool :=
  baseLabels.any (fun b => strContainsSub s b)

/-- Every classification label the three modelled converters can place
in column 13 of an emitted record. -/
def amendedLabels : List String :=
  ["TRANSFER-IN", "TRANSFER-IN **BAD DATA", "TRANSFER-IN **BAD DATA**",
   "BUY", "BUY **BAD DATA**", "SELL",
   "TRANSFER-OUT", "TRANSFER-OUT **BAD DATA**",
   "STAKING", "STAKING **BAD DATA**",
   "REWARD", "REWARD **BAD DATA**",
   "CASHBACK", "CASHBACK **BAD DATA**",
   "CASHBACK-REVERSAL", "CASHBACK-REVERSAL **BAD DATA**",
   "CRO STAKE **BAD DATA**", "CRO UNSTAKE **BAD DATA**", "***INVALID***"]

/-- Records of an extended output map come from the original map or are
the appended record. -/
theorem mem_outRecords_outAppend :
    ∀ {m : List (String × List Row)} {k : String} {v r : Row},
      r ∈ outRecords (outAppend m k v) → r ∈ outRecords m ∨ r = v
  | [], k, v, r, h => by
    simp [outRecords, outAppend] at h
    exact Or.inr h
  | p :: rest, k, v, r, h => by
    unfold outAppend at h
    by_cases hk : p.1 == k
    · rw [if_pos hk] at h
      simp only [outRecords, List.map_cons, List.flatten_cons] at h ⊢
      rcases List.mem_append.mp h with h1 | h1
      · rcases List.mem_append.mp h1 with h2 | h2
        · exact Or.inl (List.mem_append.mpr (Or.inl h2))
        · exact Or.inr (by simpa using h2)
      · exact Or.inl (List.mem_append.mpr (Or.inr h1))
    · rw [if_neg hk] at h
      simp only [outRecords, List.map_cons, List.flatten_cons] at h ⊢
      rcases List.mem_append.mp h with h1 | h1
      · exact Or.inl (List.mem_append.mpr (Or.inl h1))
      · rcases mem_outRecords_outAppend h1 with h2 | h2
        · exact Or.inl (List.mem_append.mpr (Or.inr h2))
        · exact Or.inr h2

/-- Records of an updated output map come from the original map or from
the newly stored list. -/
theorem mem_outRecords_alInsert :
    ∀ {m : List (String × List Row)} {k : String} {L : List Row} {r : Row},
      r ∈ outRecords (alInsert m k L) → r ∈ outRecords m ∨ r ∈ L
  | [], k, L, r, h => by
    simp [outRecords, alInsert] at h
    exact Or.inr h
  | p :: rest, k, L, r, h => by
    unfold alInsert at h
    by_cases hk : p.1 == k
    · rw [if_pos hk] at h
      simp only [outRecords, List.map_cons, List.flatten_cons] at h ⊢
      rcases List.mem_append.mp h with h1 | h1
      · exact Or.inr h1
      · exact Or.inl (List.mem_append.mpr (Or.inr h1))
    · rw [if_neg hk] at h
      simp only [outRecords, List.map_cons, List.flatten_cons] at h ⊢
      rcases List.mem_append.mp h with h1 | h1
      · exact Or.inl (List.mem_append.mpr (Or.inl h1))
      · rcases mem_outRecords_alInsert h1 with h2 | h2
        · exact Or.inl (List.mem_append.mpr (Or.inr h2))
        · exact Or.inr h2

/-- A record of a list stored in the output map is a record of the
map. -/
theorem mem_of_alFind :
    ∀ {m : List (String × List Row)} {k : String} {L : List Row} {r : Row},
      alFind m k = some L → r ∈ L → r ∈ outRecords m
  | [], _, _, _, h, _ => by simp [alFind] at h
  | p :: rest, k, L, r, h, hr => by
    unfold alFind at h
    simp only [List.find?] at h
    by_cases hk : p.1 == k
    · rw [hk] at h
      simp only [cond_true, Option.map_some] at h
      simp only [outRecords, List.map_cons, List.flatten_cons]
      refine List.mem_append.mpr (Or.inl ?_)
      cases h
      exact hr
    · rw [Bool.not_eq_true] at hk
      rw [hk] at h
      simp only [cond_false] at h
      simp only [outRecords, List.map_cons, List.flatten_cons]
      refine List.mem_append.mpr (Or.inr ?_)
      exact mem_of_alFind (by simpa [alFind] using h) hr

/-- Records of a cross-updated output map (the Crypto.com bad-data
write pattern) come from the original map or are the new record. -/
theorem mem_outRecords_outAppendCross {m : List (String × List Row)}
    {a b : String} {v r : Row}
    (h : r ∈ outRecords (Cdc.outAppendCross m a b v)) :
    r ∈ outRecords m ∨ r = v := by
  unfold Cdc.outAppendCross at h
  rcases mem_outRecords_alInsert h with h1 | h1
  · exact Or.inl h1
  · rcases List.mem_append.mp h1 with h2 | h2
    · cases hf : alFind m b with
      | none => rw [hf] at h2; simp at h2
      | some L =>
        rw [hf] at h2
        exact Or.inl (mem_of_alFind hf (by simpa using h2))
    · exact Or.inr (by simpa using h2)

/-- The label of a fourteen-cell record is its last cell. -/
theorem labelOf_fourteen (a0 a1 a2 a3 a4 a5 a6 a7 a8 a9 a10 a11 a12 a13 : String) :
    labelOf [a0, a1, a2, a3, a4, a5, a6, a7, a8, a9, a10, a11, a12, a13] = a13 := rfl

/-- The deposit case only ever appends TRANSFER-IN records (possibly
BAD DATA tagged). -/
theorem depositCase_labels (uk : String → String) (e : Kraken.Ledger)
    (k : Bool) (s : Kraken.St) :
    ∀ r ∈ outRecords (Kraken.depositCase uk e k s).output,
      r ∈ outRecords s.output ∨ labelOf r ∈ amendedLabels := by
  intro r hr
  unfold Kraken.depositCase at hr
  repeat' split at hr
  all_goals
    first
    | exact Or.inl hr
    | (rcases mem_outRecords_outAppend hr with h2 | h2
       · exact Or.inl h2
       · right
         subst h2
         repeat' split
         all_goals rw [labelOf_fourteen]
         all_goals decide)

/-- The spend case emits nothing. -/
theorem spendCase_output (e : Kraken.Ledger) (s : Kraken.St) :
    (Kraken.spendCase e s).output = s.output := by
  unfold Kraken.spendCase
  repeat' split
  all_goals rfl

/-- The transfer case emits nothing. -/
theorem transferCase_output (e : Kraken.Ledger) (s : Kraken.St) :
    (Kraken.transferCase e s).output = s.output := by
  unfold Kraken.transferCase
  repeat' split
  all_goals rfl

/-- The withdrawal case only ever appends TRANSFER-OUT records. -/
theorem withdrawalCase_labels (uk : String → String) (e : Kraken.Ledger)
    (s : Kraken.St) :
    ∀ r ∈ outRecords (Kraken.withdrawalCase uk e s).output,
      r ∈ outRecords s.output ∨ labelOf r ∈ amendedLabels := by
  intro r hr
  unfold Kraken.withdrawalCase at hr
  repeat' split at hr
  all_goals
    first
    | exact Or.inl hr
    | (rcases mem_outRecords_outAppend hr with h2 | h2
       · exact Or.inl h2
       · right
         subst h2
         repeat' split
         all_goals rw [labelOf_fourteen]
         all_goals decide)

/-- The receive case only ever appends BUY records. -/
theorem receiveCase_labels (uk : String → String) (e : Kraken.Ledger)
    (s s' : Kraken.St) (h : Kraken.receiveCase uk e s = RunResult.ok s') :
    ∀ r ∈ outRecords s'.output,
      r ∈ outRecords s.output ∨ labelOf r ∈ amendedLabels := by
  intro r hr
  unfold Kraken.receiveCase at h
  repeat' split at h
  all_goals
    first
    | exact RunResult.noConfusion h
    | (cases h
       first
       | exact Or.inl hr
       | (rcases mem_outRecords_outAppend hr with h2 | h2
          · exact Or.inl h2
          · right
            subst h2
            repeat' split
            all_goals rw [labelOf_fourteen]
            all_goals decide))

/-- The staking case only ever appends STAKING records. -/
theorem stakingCase_labels
    (ord : List (String × Kraken.Ledger) → List (String × Kraken.Ledger))
    (price : String → String → Option String) (uk : String → String)
    (e : Kraken.Ledger) (k : Bool) (s s' : Kraken.St)
    (h : Kraken.stakingCase ord price uk e k s = RunResult.ok s') :
    ∀ r ∈ outRecords s'.output,
      r ∈ outRecords s.output ∨ labelOf r ∈ amendedLabels := by
  intro r hr
  unfold Kraken.stakingCase at h
  repeat' split at h
  all_goals
    first
    | exact RunResult.noConfusion h
    | (cases h
       first
       | exact Or.inl hr
       | (rcases mem_outRecords_outAppend hr with h2 | h2
          · exact Or.inl h2
          · right
            subst h2
            repeat' split
            all_goals rw [labelOf_fourteen]
            all_goals decide))

/-- Every record a Kraken row-step adds carries a label from the
amended vocabulary. -/
theorem kraken_step_labels
    (ord : List (String × Kraken.Ledger) → List (String × Kraken.Ledger))
    (price : String → String → Option String) (uk : String → String)
    (e : Kraken.Ledger) (s s' : Kraken.St)
    (h : Kraken.stepWith ord price uk e s = RunResult.ok s') :
    ∀ r ∈ outRecords s'.output,
      r ∈ outRecords s.output ∨ labelOf r ∈ amendedLabels := by
  intro r hr
  unfold Kraken.stepWith at h
  split at h
  · cases h
    exact depositCase_labels uk e (Kraken.areRowValuesAcceptable e).1
      { s with diags := s.diags ++ (Kraken.areRowValuesAcceptable e).2 } r hr
  · split at h
    · cases h
      rw [spendCase_output] at hr
      exact Or.inl hr
    · split at h
      · exact receiveCase_labels uk e
          { s with diags := s.diags ++ (Kraken.areRowValuesAcceptable e).2 } s' h r hr
      · split at h
        · cases h
          exact withdrawalCase_labels uk e
            { s with diags := s.diags ++ (Kraken.areRowValuesAcceptable e).2 } r hr
        · split at h
          · cases h
            rw [transferCase_output] at hr
            exact Or.inl hr
          · split at h
            · exact stakingCase_labels ord price uk e (Kraken.areRowValuesAcceptable e).1
                { s with diags := s.diags ++ (Kraken.areRowValuesAcceptable e).2 } s' h r hr
            · split at h
              · exact RunResult.noConfusion h
              · cases h
                exact Or.inl hr

/-- Labels stay in the amended vocabulary across the whole Kraken row
loop. -/
theorem kraken_runRows_labels
    (ords : Nat → List (String × Kraken.Ledger) → List (String × Kraken.Ledger))
    (price : String → String → Option String) (uk : String → String) :
    ∀ (rows : List Row) (idx : Nat) (s s' : Kraken.St),
      Kraken.runRows ords price uk rows idx s = RunResult.ok s' →
      (∀ r ∈ outRecords s.output, labelOf r ∈ amendedLabels) →
      ∀ r ∈ outRecords s'.output, labelOf r ∈ amendedLabels
  | [], _, s, s', h, hs => by
    unfold Kraken.runRows at h
    cases h
    exact hs
  | row :: rest, idx, s, s', h, hs => by
    unfold Kraken.runRows at h
    split at h
    · exact RunResult.noConfusion h
    · rename_i e hm
      split at h
      · rename_i s1 hstep
        refine kraken_runRows_labels ords price uk rest (idx + 1) s1 s' h ?_
        intro r hr
        rcases kraken_step_labels (ords idx) price uk e s s1 hstep r hr with h2 | h2
        · exact hs r h2
        · exact h2
      · exact RunResult.noConfusion h
      · exact RunResult.noConfusion h

set_option maxHeartbeats 2000000 in
/-- Every record the tail half of the Crypto.com description chain adds
carries a label from the amended vocabulary. -/
theorem cdc_stepRest_labels {idx : Nat}
    {exchangeTime ukTime description currency amount nativeCurrency nativeAmount
     kind : String} {s s' : Cdc.St}
    (h : Cdc.stepRest idx exchangeTime ukTime description currency amount
      nativeCurrency nativeAmount kind s = RunResult.ok s') :
    ∀ r ∈ outRecords s'.output,
      r ∈ outRecords s.output ∨ labelOf r ∈ amendedLabels := by
  intro r hr
  unfold Cdc.stepRest at h
  repeat' split at h
  all_goals
    first
    | exact RunResult.noConfusion h
    | (first
        | unfold Cdc.cardCashbackCase at h
        | unfold Cdc.cryptoEarnCase at h
        | unfold Cdc.cashbackReversalCase at h
        | unfold Cdc.withdrawCase at h
        | unfold Cdc.toPlusCase at h
        | unfold Cdc.fromPlusCase at h
        | unfold Cdc.payRewardsCase at h
        | unfold Cdc.unrecognisedCase at h
        | skip
       repeat' split at h
       all_goals
         first
         | exact RunResult.noConfusion h
         | (cases h
            first
            | exact Or.inl hr
            | (rcases mem_outRecords_outAppend hr with h2 | h2
               · exact Or.inl h2
               · right
                 subst h2
                 rw [labelOf_fourteen]
                 decide)))

set_option maxHeartbeats 2000000 in
/-- Every record a Crypto.com row-step adds carries a label from the
amended vocabulary. -/
theorem cdc_step_labels (uk : String → String) (idx : Nat) (row : Row)
    (s s' : Cdc.St) (h : Cdc.step uk idx row s = RunResult.ok s') :
    ∀ r ∈ outRecords s'.output,
      r ∈ outRecords s.output ∨ labelOf r ∈ amendedLabels := by
  intro r hr
  unfold Cdc.step at h
  simp only [bind_def, getF_eq, pure_eq_ok] at h
  repeat' split at h
  all_goals
    first
    | exact RunResult.noConfusion h
    | exact cdc_stepRest_labels h r hr
    | (first
        | unfold Cdc.signupBonusCase at h
        | unfold Cdc.earnWithdrawalCase at h
        | unfold Cdc.depositCase at h
        | unfold Cdc.exchangeCase at h
        | unfold Cdc.stakeRewardsCase at h
        | unfold Cdc.croStakeCase at h
        | unfold Cdc.croUnstakeCase at h
        | unfold Cdc.cardCashbackCase at h
        | unfold Cdc.cryptoEarnCase at h
        | unfold Cdc.cashbackReversalCase at h
        | unfold Cdc.withdrawCase at h
        | unfold Cdc.toPlusCase at h
        | unfold Cdc.fromPlusCase at h
        | unfold Cdc.payRewardsCase at h
        | unfold Cdc.unrecognisedCase at h
        | skip
       repeat' split at h
       all_goals
         first
         | exact RunResult.noConfusion h
         | (cases h
            first
            | exact Or.inl hr
            | (rcases mem_outRecords_outAppend hr with h2 | h2
               · exact Or.inl h2
               · right
                 subst h2
                 rw [labelOf_fourteen]
                 decide)
            | (rcases mem_outRecords_outAppendCross hr with h2 | h2
               · exact Or.inl h2
               · right
                 subst h2
                 rw [labelOf_fourteen]
                 decide)
            | (rcases mem_outRecords_outAppend hr with h2 | h2
               · (rcases mem_outRecords_outAppend h2 with h3 | h3
                  · exact Or.inl h3
                  · right
                    subst h3
                    rw [labelOf_fourteen]
                    decide)
               · right
                 subst h2
                 rw [labelOf_fourteen]
                 decide)))

/-- Labels stay in the amended vocabulary across the whole Crypto.com
row loop. -/
theorem cdc_runRows_labels (uk : String → String) :
    ∀ (rows : List Row) (idx : Nat) (s s' : Cdc.St),
      Cdc.runRows uk rows idx s = RunResult.ok s' →
      (∀ r ∈ outRecords s.output, labelOf r ∈ amendedLabels) →
      ∀ r ∈ outRecords s'.output, labelOf r ∈ amendedLabels
  | [], _, s, s', h, hs => by
    unfold Cdc.runRows at h
    cases h
    exact hs
  | row :: rest, idx, s, s', h, hs => by
    unfold Cdc.runRows at h
    simp only [bind_def, pure_eq_ok] at h
    split at h
    · rename_i s1 hstep
      refine cdc_runRows_labels uk rest (idx + 1) s1 s' h ?_
      intro r hr
      rcases cdc_step_labels uk idx row s s1 hstep r hr with h2 | h2
      · exact hs r h2
      · exact h2
    · exact RunResult.noConfusion h
    · exact RunResult.noConfusion h

/-- The Nexo "LockingTermDeposit" case leaves the output rows
unchanged. -/
theorem nexo_locking_labels {fo : Nexo.FloatOracle} {row : Row} {s s' : Nexo.St}
    (h : Nexo.lockingTermDepositCase fo row s = RunResult.ok s') :
    ∀ r ∈ s'.output, r ∈ s.output ∨ labelOf r ∈ amendedLabels := by
  intro r hr
  unfold Nexo.lockingTermDepositCase at h
  simp only [bind_def, getF_eq, pure_eq_ok] at h
  repeat' split at h
  all_goals
    first
    | exact RunResult.noConfusion h
    | (cases h
       exact Or.inl hr)

/-- The Nexo "UnlockingTermDeposit" case leaves the output rows
unchanged. -/
theorem nexo_unlocking_labels {fo : Nexo.FloatOracle} {row : Row} {s s' : Nexo.St}
    (h : Nexo.unlockingTermDepositCase fo row s = RunResult.ok s') :
    ∀ r ∈ s'.output, r ∈ s.output ∨ labelOf r ∈ amendedLabels := by
  intro r hr
  unfold Nexo.unlockingTermDepositCase at h
  simp only [bind_def, getF_eq, pure_eq_ok] at h
  repeat' split at h
  all_goals
    first
    | exact RunResult.noConfusion h
    | (cases h
       exact Or.inl hr)

/-- The Nexo interest case only ever appends a STAKING record. -/
theorem nexo_interest_labels {row : Row} {s s' : Nexo.St}
    (h : Nexo.interestCase row s = RunResult.ok s') :
    ∀ r ∈ s'.output, r ∈ s.output ∨ labelOf r ∈ amendedLabels := by
  intro r hr
  unfold Nexo.interestCase at h
  simp only [bind_def, getF_eq, pure_eq_ok] at h
  repeat' split at h
  all_goals
    first
    | exact RunResult.noConfusion h
    | (cases h
       rcases List.mem_append.mp hr with h2 | h2
       · exact Or.inl h2
       · right
         have h3 := List.mem_singleton.mp h2
         subst h3
         rw [labelOf_fourteen]
         decide)

/-- The Nexo deposit case only ever appends a REWARD record. -/
theorem nexo_deposit_labels {row : Row} {s s' : Nexo.St}
    (h : Nexo.depositCase row s = RunResult.ok s') :
    ∀ r ∈ s'.output, r ∈ s.output ∨ labelOf r ∈ amendedLabels := by
  intro r hr
  unfold Nexo.depositCase at h
  simp only [bind_def, getF_eq, pure_eq_ok] at h
  repeat' split at h
  all_goals
    first
    | exact RunResult.noConfusion h
    | (cases h
       rcases List.mem_append.mp hr with h2 | h2
       · exact Or.inl h2
       · right
         have h3 := List.mem_singleton.mp h2
         subst h3
         rw [labelOf_fourteen]
         decide)

/-- The Nexo "Exchange Cashback" case leaves the output rows
unchanged. -/
theorem nexo_exchangeCashback_labels {row : Row} {s s' : Nexo.St}
    (h : Nexo.exchangeCashbackCase row s = RunResult.ok s') :
    ∀ r ∈ s'.output, r ∈ s.output ∨ labelOf r ∈ amendedLabels := by
  intro r hr
  unfold Nexo.exchangeCashbackCase at h
  simp only [bind_def, getF_eq, pure_eq_ok] at h
  repeat' split at h
  all_goals
    first
    | exact RunResult.noConfusion h
    | (cases h
       exact Or.inl hr)

/-- The Nexo "Exchange" case leaves the output rows unchanged. -/
theorem nexo_exchange_labels {row : Row} {s s' : Nexo.St}
    (h : Nexo.exchangeCase row s = RunResult.ok s') :
    ∀ r ∈ s'.output, r ∈ s.output ∨ labelOf r ∈ amendedLabels := by
  intro r hr
  unfold Nexo.exchangeCase at h
  simp only [bind_def, getF_eq, pure_eq_ok] at h
  repeat' split at h
  all_goals
    first
    | exact RunResult.noConfusion h
    | (cases h
       exact Or.inl hr)

/-- The Nexo "ExchangeToWithdraw" case leaves the output rows
unchanged. -/
theorem nexo_exchangeToWithdraw_labels {fo : Nexo.FloatOracle} {row : Row}
    {s s' : Nexo.St}
    (h : Nexo.exchangeToWithdrawCase fo row s = RunResult.ok s') :
    ∀ r ∈ s'.output, r ∈ s.output ∨ labelOf r ∈ amendedLabels := by
  intro r hr
  unfold Nexo.exchangeToWithdrawCase at h
  simp only [bind_def, getF_eq, pure_eq_ok] at h
  repeat' split at h
  all_goals
    first
    | exact RunResult.noConfusion h
    | (cases h
       exact Or.inl hr)

/-- The Nexo "WithdrawExchanged" case leaves the output rows
unchanged. -/
theorem nexo_withdrawExchanged_labels {row : Row} {s s' : Nexo.St}
    (h : Nexo.withdrawExchangedCase row s = RunResult.ok s') :
    ∀ r ∈ s'.output, r ∈ s.output ∨ labelOf r ∈ amendedLabels := by
  intro r hr
  unfold Nexo.withdrawExchangedCase at h
  simp only [bind_def, getF_eq, pure_eq_ok] at h
  repeat' split at h
  all_goals
    first
    | exact RunResult.noConfusion h
    | (cases h
       exact Or.inl hr)

/-- The Nexo loan check never changes the output rows. -/
theorem nexo_loanCheck_output {row : Row} {s s' : Nexo.St}
    (h : Nexo.loanCheck row s = RunResult.ok s') : s'.output = s.output := by
  unfold Nexo.loanCheck at h
  simp only [bind_def, getF_eq, pure_eq_ok] at h
  repeat' split at h
  all_goals
    first
    | exact RunResult.noConfusion h
    | (cases h
       rfl)

/-- Every record the tail of the Nexo type switch adds carries a label
from the amended vocabulary. -/
theorem nexo_dispatchRest_labels {fo : Nexo.FloatOracle} {t1 : String} {row : Row}
    {s s' : Nexo.St}
    (h : Nexo.dispatchRest fo t1 row s = RunResult.ok s') :
    ∀ r ∈ s'.output, r ∈ s.output ∨ labelOf r ∈ amendedLabels := by
  intro r hr
  unfold Nexo.dispatchRest at h
  repeat' split at h
  all_goals
    first
    | exact RunResult.noConfusion h
    | exact nexo_deposit_labels h r hr
    | exact nexo_exchangeCashback_labels h r hr
    | exact nexo_exchange_labels h r hr
    | exact nexo_exchangeToWithdraw_labels h r hr
    | exact nexo_withdrawExchanged_labels h r hr
    | (cases h
       exact Or.inl hr)

/-- Every record the Nexo type switch adds carries a label from the
amended vocabulary. -/
theorem nexo_dispatch_labels {fo : Nexo.FloatOracle} {row : Row} {s s' : Nexo.St}
    (h : Nexo.dispatch fo row s = RunResult.ok s') :
    ∀ r ∈ s'.output, r ∈ s.output ∨ labelOf r ∈ amendedLabels := by
  intro r hr
  unfold Nexo.dispatch at h
  simp only [bind_def, getF_eq, pure_eq_ok] at h
  repeat' split at h
  all_goals
    first
    | exact RunResult.noConfusion h
    | exact nexo_locking_labels h r hr
    | exact nexo_unlocking_labels h r hr
    | exact nexo_interest_labels h r hr
    | exact nexo_dispatchRest_labels h r hr
    | (cases h
       exact Or.inl hr)

/-- Every record a Nexo row-step adds carries a label from the amended
vocabulary. -/
theorem nexo_step_labels {fo : Nexo.FloatOracle} {row : Row} {s s' : Nexo.St}
    (h : Nexo.step fo row s = RunResult.ok s') :
    ∀ r ∈ s'.output, r ∈ s.output ∨ labelOf r ∈ amendedLabels := by
  intro r hr
  unfold Nexo.step at h
  simp only [bind_def, getF_eq, pure_eq_ok] at h
  split at h
  · rename_i s1 hlc
    rcases nexo_dispatch_labels h r hr with h2 | h2
    · rw [nexo_loanCheck_output hlc] at h2
      exact Or.inl h2
    · exact Or.inr h2
  · exact RunResult.noConfusion h
  · exact RunResult.noConfusion h

/-- Labels stay in the amended vocabulary across the whole Nexo row
loop. -/
theorem nexo_runRows_labels (fo : Nexo.FloatOracle) :
    ∀ (rows : List Row) (s s' : Nexo.St),
      Nexo.runRows fo rows s = RunResult.ok s' →
      (∀ r ∈ s.output, labelOf r ∈ amendedLabels) →
      ∀ r ∈ s'.output, labelOf r ∈ amendedLabels
  | [], s, s', h, hs => by
    unfold Nexo.runRows at h
    cases h
    intro r hr
    by_cases hc : s.fifo.length > 0
    · rw [if_pos hc] at hr
      exact hs r hr
    · rw [if_neg hc] at hr
      exact hs r hr
  | row :: rest, s, s', h, hs => by
    unfold Nexo.runRows at h
    simp only [bind_def, pure_eq_ok] at h
    split at h
    · rename_i s1 hstep
      refine nexo_runRows_labels fo rest s1 s' h ?_
      intro r hr
      rcases nexo_step_labels hstep r hr with h2 | h2
      · exact hs r h2
      · exact h2
    · exact RunResult.noConfusion h
    · exact RunResult.noConfusion h

/-- C7, counterexample: a Crypto.com export holding one row with the
unrecognised description "Mystery Thing" converts successfully, and the
converted output holds a record whose classification label contains
none of the eight base labels of the claimed vocabulary (it is
`***INVALID***`), so the claimed label vocabulary is too small even
when read so that any decorated variant of a base label is accepted. -/
theorem claim_C7_counterexample :
    (match Cdc.convertTransactions (fun t => t)
        [Cdc.expectedFirstRow,
         ["t", "Mystery Thing", "BTC", "1", "", "", "GBP", "2", "", "k", ""]] with
     | RunResult.ok (rows, _) =>
       rows.any (fun r => !(inClaimedVocabulary (labelOf r)) && r.length = 14)
     | _ => false) = true := by
  decide

/-- C7, amended: with the vocabulary widened to the labels the three
converters actually write — the eight base labels, their `**BAD DATA**`
decorated forms, and the three extra labels `CRO STAKE **BAD DATA**`,
`CRO UNSTAKE **BAD DATA**` and `***INVALID***` — every record any of
the three converter loops accumulates from an empty initial state
carries a label from the vocabulary. -/
theorem claim_C7_amended
    (ords : Nat → List (String × Kraken.Ledger) → List (String × Kraken.Ledger))
    (price : String → String → Option String) (uk uk2 : String → String)
    (fo : Nexo.FloatOracle) :
    (∀ rows idx s', Kraken.runRows ords price uk rows idx Kraken.St.init =
        RunResult.ok s' → ∀ r ∈ outRecords s'.output, labelOf r ∈ amendedLabels) ∧
    (∀ rows s', Nexo.runRows fo rows Nexo.St.init = RunResult.ok s' →
        ∀ r ∈ s'.output, labelOf r ∈ amendedLabels) ∧
    (∀ rows idx s', Cdc.runRows uk2 rows idx Cdc.St.init = RunResult.ok s' →
        ∀ r ∈ outRecords s'.output, labelOf r ∈ amendedLabels) := by
  refine ⟨?_, ?_, ?_⟩
  · intro rows idx s' h
    exact kraken_runRows_labels ords price uk rows idx Kraken.St.init s' h
      (fun r hr => absurd hr (by simp [Kraken.St.init, outRecords]))
  · intro rows s' h
    exact nexo_runRows_labels fo rows Nexo.St.init s' h
      (fun r hr => absurd hr (by simp [Nexo.St.init]))
  · intro rows idx s' h
    exact cdc_runRows_labels uk2 rows idx Cdc.St.init s' h
      (fun r hr => absurd hr (by simp [Cdc.St.init, outRecords]))

/-- C7, witness: the amended label invariant applied to a concrete
Crypto.com run of the "Mystery Thing" row. -/
theorem claim_C7_witness :
    labelOf ["***UNRECOGNISED***", "crypto.com App", "t", "t", "1", "", "", "", "2",
      "", "", "", "", "***INVALID***"] ∈ amendedLabels :=
  (claim_C7_amended (fun _ l => l) (fun _ _ => none) (fun t => t) (fun t => t)
      ⟨fun _ _ => true, fun _ _ => true⟩).2.2
    [["t", "Mystery Thing", "BTC", "1", "", "", "GBP", "2", "", "k", ""]] 2
    { output := [("BTC",
        [["***UNRECOGNISED***", "crypto.com App", "t", "t", "1", "", "", "", "2",
          "", "", "", "", "***INVALID***"]])],
      diags := [Diag.cdcUnrecognised "Mystery Thing"] }
    (by decide)
    ["***UNRECOGNISED***", "crypto.com App", "t", "t", "1", "", "", "", "2",
      "", "", "", "", "***INVALID***"]
    (by decide)

/-! ### Claim C9: determinism under map-iteration order -/

/-- The order-insensitive core of a Kraken conversion state: everything
except the pending staking-deposits map and the diagnostics, which are
the only state components the randomised map-iteration order of the
staking heuristic can influence. -/
def krCore (s : Kraken.St) :
    List (String × List Row) × List (String × Kraken.Ledger) ×
      List (String × Kraken.Ledger) × List (String × Kraken.Ledger) :=
  (s.output, s.pendingSpends, s.pendingWithdrawals, s.pendingTokenDeposits)

/-- Core equality lifted to run results: success pairs with success on
an equal core, a fatal abort pairs with the identical abort. -/
def coreRel : RunResult Kraken.St → RunResult Kraken.St → Prop
  | RunResult.ok a, RunResult.ok b => krCore a = krCore b
  | RunResult.fatal d, RunResult.fatal d2 => d = d2
  | RunResult.panic, RunResult.panic => True
  | _, _ => False

/-- The deposit case preserves core equality. -/
theorem depositCase_core (uk : String → String) (e : Kraken.Ledger) (k : Bool)
    {s t : Kraken.St} (h : krCore t = krCore s) :
    krCore (Kraken.depositCase uk e k t) = krCore (Kraken.depositCase uk e k s) := by
  obtain ⟨o, ps, pw, psd, ptd, dg⟩ := s
  obtain ⟨o2, ps2, pw2, psd2, ptd2, dg2⟩ := t
  simp only [krCore, Prod.mk.injEq] at h
  obtain ⟨h1, h2, h3, h4⟩ := h
  subst h1
  subst h2
  subst h3
  subst h4
  unfold Kraken.depositCase
  dsimp only
  repeat' split
  all_goals rfl

/-- The spend case preserves core equality. -/
theorem spendCase_core (e : Kraken.Ledger) {s t : Kraken.St}
    (h : krCore t = krCore s) :
    krCore (Kraken.spendCase e t) = krCore (Kraken.spendCase e s) := by
  obtain ⟨o, ps, pw, psd, ptd, dg⟩ := s
  obtain ⟨o2, ps2, pw2, psd2, ptd2, dg2⟩ := t
  simp only [krCore, Prod.mk.injEq] at h
  obtain ⟨h1, h2, h3, h4⟩ := h
  subst h1
  subst h2
  subst h3
  subst h4
  unfold Kraken.spendCase
  dsimp only
  repeat' split
  all_goals rfl

/-- The receive case preserves core equality, and aborts identically on
both sides. -/
theorem receiveCase_core (uk : String → String) (e : Kraken.Ledger)
    {s t : Kraken.St} (h : krCore t = krCore s) :
    coreRel (Kraken.receiveCase uk e t) (Kraken.receiveCase uk e s) := by
  obtain ⟨o, ps, pw, psd, ptd, dg⟩ := s
  obtain ⟨o2, ps2, pw2, psd2, ptd2, dg2⟩ := t
  simp only [krCore, Prod.mk.injEq] at h
  obtain ⟨h1, h2, h3, h4⟩ := h
  subst h1
  subst h2
  subst h3
  subst h4
  unfold Kraken.receiveCase
  dsimp only
  repeat' split
  all_goals first | rfl | trivial

/-- The withdrawal case preserves core equality. -/
theorem withdrawalCase_core (uk : String → String) (e : Kraken.Ledger)
    {s t : Kraken.St} (h : krCore t = krCore s) :
    krCore (Kraken.withdrawalCase uk e t) = krCore (Kraken.withdrawalCase uk e s) := by
  obtain ⟨o, ps, pw, psd, ptd, dg⟩ := s
  obtain ⟨o2, ps2, pw2, psd2, ptd2, dg2⟩ := t
  simp only [krCore, Prod.mk.injEq] at h
  obtain ⟨h1, h2, h3, h4⟩ := h
  subst h1
  subst h2
  subst h3
  subst h4
  unfold Kraken.withdrawalCase
  dsimp only
  repeat' split
  all_goals rfl

/-- The transfer case preserves core equality, whatever the two pending
staking-deposit maps hold. -/
theorem transferCase_core (e : Kraken.Ledger) {s t : Kraken.St}
    (h : krCore t = krCore s) :
    krCore (Kraken.transferCase e t) = krCore (Kraken.transferCase e s) := by
  obtain ⟨o, ps, pw, psd, ptd, dg⟩ := s
  obtain ⟨o2, ps2, pw2, psd2, ptd2, dg2⟩ := t
  simp only [krCore, Prod.mk.injEq] at h
  obtain ⟨h1, h2, h3, h4⟩ := h
  subst h1
  subst h2
  subst h3
  subst h4
  unfold Kraken.transferCase
  dsimp only
  repeat' split
  all_goals rfl

/-- The staking case preserves core equality for any two map-iteration
orders: the iteration order and map contents only steer which entry is
deleted and the diagnostics, never the emitted record or the abort. -/
theorem stakingCase_core
    (ord ord2 : List (String × Kraken.Ledger) → List (String × Kraken.Ledger))
    (price : String → String → Option String) (uk : String → String)
    (e : Kraken.Ledger) (k : Bool) {s t : Kraken.St} (h : krCore t = krCore s) :
    coreRel (Kraken.stakingCase ord2 price uk e k t)
      (Kraken.stakingCase ord price uk e k s) := by
  obtain ⟨o, ps, pw, psd, ptd, dg⟩ := s
  obtain ⟨o2, ps2, pw2, psd2, ptd2, dg2⟩ := t
  simp only [krCore, Prod.mk.injEq] at h
  obtain ⟨h1, h2, h3, h4⟩ := h
  subst h1
  subst h2
  subst h3
  subst h4
  unfold Kraken.stakingCase
  dsimp only
  repeat' split
  all_goals first | rfl | trivial

/-- A whole row step preserves core equality for any two map-iteration
orders. -/
theorem stepWith_core
    (ord ordB : List (String × Kraken.Ledger) → List (String × Kraken.Ledger))
    (price : String → String → Option String) (uk : String → String)
    (e : Kraken.Ledger) {s t : Kraken.St} (h : krCore t = krCore s) :
    coreRel (Kraken.stepWith ordB price uk e t) (Kraken.stepWith ord price uk e s) := by
  unfold Kraken.stepWith
  dsimp only
  repeat' split
  all_goals
    first
    | rfl
    | trivial
    | exact depositCase_core uk e _ h
    | exact spendCase_core e h
    | exact receiveCase_core uk e h
    | exact withdrawalCase_core uk e h
    | exact transferCase_core e h
    | exact stakingCase_core ord ordB price uk e _ h

/-- The whole Kraken row loop preserves core equality for any two
families of map-iteration orders: a successful run under one family is
a successful run under the other, with the same core. -/
theorem runRows_core
    (ords ordsB : Nat → List (String × Kraken.Ledger) → List (String × Kraken.Ledger))
    (price : String → String → Option String) (uk : String → String) :
    ∀ (rows : List Row) (idx : Nat) (s t : Kraken.St), krCore t = krCore s →
      ∀ s1, Kraken.runRows ords price uk rows idx s = RunResult.ok s1 →
      ∃ t1, Kraken.runRows ordsB price uk rows idx t = RunResult.ok t1 ∧
        krCore t1 = krCore s1
  | [], idx, s, t, h, s1, hrun => by
    unfold Kraken.runRows at hrun ⊢
    cases hrun
    exact ⟨t, rfl, h⟩
  | row :: rest, idx, s, t, h, s1, hrun => by
    unfold Kraken.runRows at hrun ⊢
    split at hrun
    · exact RunResult.noConfusion hrun
    · rename_i e hm
      have hcr := stepWith_core (ords idx) (ordsB idx) price uk e h
      cases hst : Kraken.stepWith (ords idx) price uk e s with
      | fatal d =>
        rw [hst] at hrun
        exact RunResult.noConfusion hrun
      | panic =>
        rw [hst] at hrun
        exact RunResult.noConfusion hrun
      | ok s2 =>
        rw [hst] at hrun
        rw [hst] at hcr
        cases htt : Kraken.stepWith (ordsB idx) price uk e t with
        | fatal d =>
          rw [htt] at hcr
          exact absurd hcr (by simp [coreRel])
        | panic =>
          rw [htt] at hcr
          exact absurd hcr (by simp [coreRel])
        | ok t2 =>
          rw [htt] at hcr
          obtain ⟨t1, ht1, hc1⟩ :=
            runRows_core ords ordsB price uk rest (idx + 1) s2 t2 hcr s1 hrun
          exact ⟨t1, ht1, hc1⟩

/-- Any correct ascending sort of the same multiset of strings is the
same list. -/
theorem sortStrings_perm {l l2 : List String} (h : l.Perm l2) :
    Kraken.sortStrings l = Kraken.sortStrings l2 := by
  haveI ha : IsAntisymm String (fun a b : String => a ≤ b) :=
    ⟨fun _ _ hab hba => le_antisymm hab hba⟩
  haveI ht : IsTotal String (fun a b : String => a ≤ b) := ⟨fun a b => le_total a b⟩
  haveI htr : IsTrans String (fun a b : String => a ≤ b) :=
    ⟨fun _ _ _ hab hbc => le_trans hab hbc⟩
  unfold Kraken.sortStrings
  exact List.eq_of_perm_of_sorted
    ((List.perm_insertionSort _ l).trans (h.trans (List.perm_insertionSort _ l2).symm))
    (List.sorted_insertionSort _ l)
    (List.sorted_insertionSort _ l2)

/-- `find?` is order-independent on a list whose satisfying elements
are all equal. -/
theorem find?_eq_of_perm {α : Type} {p : α → Bool} :
    ∀ {l l2 : List α}, l.Perm l2 →
      (∀ x ∈ l, ∀ y ∈ l, p x = true → p y = true → x = y) →
      l.find? p = l2.find? p := by
  intro l l2 hp
  induction hp with
  | nil => intro _; rfl
  | cons a hperm ih =>
    intro hu
    by_cases hpa : p a = true
    · rw [List.find?_cons_of_pos _ hpa, List.find?_cons_of_pos _ hpa]
    · rw [List.find?_cons_of_neg _ hpa, List.find?_cons_of_neg _ hpa]
      exact ih (fun x hx y hy => hu x (List.mem_cons_of_mem a hx)
        y (List.mem_cons_of_mem a hy))
  | swap a b t =>
    intro hu
    by_cases hpb : p b = true
    · by_cases hpa : p a = true
      · have hab : b = a := hu b (by simp) a (by simp) hpb hpa
        subst hab
        rfl
      · rw [List.find?_cons_of_neg _ hpa, List.find?_cons_of_pos _ hpb,
          List.find?_cons_of_pos _ hpb]
    · by_cases hpa : p a = true
      · rw [List.find?_cons_of_pos _ hpa, List.find?_cons_of_neg _ hpb,
          List.find?_cons_of_pos _ hpa]
      · rw [List.find?_cons_of_neg _ hpb, List.find?_cons_of_neg _ hpa,
          List.find?_cons_of_neg _ hpa, List.find?_cons_of_neg _ hpb]
  | trans h1 h2 ih1 ih2 =>
    intro hu
    refine (ih1 hu).trans (ih2 ?_)
    intro x hx y hy px py
    exact hu x (h1.mem_iff.mpr hx) y (h1.mem_iff.mpr hy) px py

/-- At most one entry of the ticker-translation table maps to any given
modern name: its three values are pairwise distinct. -/
theorem translation_unique (c : String) :
    ∀ x ∈ Kraken.currencyTranslation, ∀ y ∈ Kraken.currencyTranslation,
      (x.2 == c) = true → (y.2 == c) = true → x = y := by
  intro x hx y hy hxc hyc
  simp only [Kraken.currencyTranslation, List.mem_cons,
    List.not_mem_nil, or_false] at hx hy
  have hx2 : x.2 = c := by simpa using hxc
  have hy2 : y.2 = c := by simpa using hyc
  rcases hx with rfl | rfl | rfl <;> rcases hy with rfl | rfl | rfl <;>
    first
    | rfl
    | exact absurd (hx2.trans hy2.symm) (by decide)

/-- The per-currency group retrieval is independent of the translation
table's iteration order. -/
theorem groupData_perm
    (ord3 ord3B : List (String × String) → List (String × String))
    (h3 : ∀ l, (ord3 l).Perm l) (h3B : ∀ l, (ord3B l).Perm l)
    (out : List (String × List Row)) (c : String) :
    Kraken.groupData ord3 out c = Kraken.groupData ord3B out c := by
  unfold Kraken.groupData
  have hf : (ord3 Kraken.currencyTranslation).find? (fun p => p.2 == c) =
      (ord3B Kraken.currencyTranslation).find? (fun p => p.2 == c) := by
    have hu := translation_unique c
    have e1 := find?_eq_of_perm (p := fun p => p.2 == c) (h3 Kraken.currencyTranslation)
      (fun x hx y hy => hu x ((h3 Kraken.currencyTranslation).mem_iff.mp hx)
        y ((h3 Kraken.currencyTranslation).mem_iff.mp hy))
    have e2 := find?_eq_of_perm (p := fun p => p.2 == c) (h3B Kraken.currencyTranslation)
      (fun x hx y hy => hu x ((h3B Kraken.currencyTranslation).mem_iff.mp hx)
        y ((h3B Kraken.currencyTranslation).mem_iff.mp hy))
    exact e1.trans e2.symm
  rw [hf]

/-- The final presentation pass is independent of the two map-iteration
orders it uses, as long as each enumerates the map's entries. -/
theorem finalizeWith_perm
    (ord2 ord2B : List (String × List Row) → List (String × List Row))
    (ord3 ord3B : List (String × String) → List (String × String))
    (h2 : ∀ l, (ord2 l).Perm l) (h2B : ∀ l, (ord2B l).Perm l)
    (h3 : ∀ l, (ord3 l).Perm l) (h3B : ∀ l, (ord3B l).Perm l)
    (out : List (String × List Row)) :
    Kraken.finalizeWith ord2 ord3 out = Kraken.finalizeWith ord2B ord3B out := by
  unfold Kraken.finalizeWith
  have hc : Kraken.sortStrings ((ord2 out).map (fun p => Kraken.translate p.1)) =
      Kraken.sortStrings ((ord2B out).map (fun p => Kraken.translate p.1)) :=
    sortStrings_perm (((h2 out).map _).trans ((h2B out).map _).symm)
  rw [hc]
  have hg : Kraken.groupData ord3 out = Kraken.groupData ord3B out :=
    funext (fun c => groupData_perm ord3 ord3B h3 h3B out c)
  rw [hg]

/-- C9: the Kraken conversion is deterministic in the face of Go's
randomised map-iteration order.  For any two families of iteration
orders (`ords`/`ordsB` for the staking heuristic's range over the
pending staking-deposits map, `ord2`/`ord2B` for the range over the
output map, `ord3`/`ord3B` for the range over the ticker-translation
map, the latter two assumed to enumerate their map), a successful run
under the first family is also successful under the second and emits
exactly the same output rows; only diagnostics can differ in order of
discovery.  Re-running the converter on the same input and price cache
therefore always writes a byte-identical output file. -/
theorem claim_C9
    (ords ordsB : Nat → List (String × Kraken.Ledger) → List (String × Kraken.Ledger))
    (ord2 ord2B : List (String × List Row) → List (String × List Row))
    (ord3 ord3B : List (String × String) → List (String × String))
    (price : String → String → Option String) (uk : String → String)
    (transactions : List Row)
    (h2 : ∀ l, (ord2 l).Perm l) (h2B : ∀ l, (ord2B l).Perm l)
    (h3 : ∀ l, (ord3 l).Perm l) (h3B : ∀ l, (ord3B l).Perm l)
    (rows : List Row) (diags : List Diag)
    (h : Kraken.convertTransactionsWith ords ord2 ord3 price uk transactions =
      RunResult.ok (rows, diags)) :
    ∃ diags2, Kraken.convertTransactionsWith ordsB ord2B ord3B price uk transactions =
      RunResult.ok (rows, diags2) := by
  unfold Kraken.convertTransactionsWith at h ⊢
  cases hget : transactions.get? 0 with
  | none =>
    try rw [hget] at h
    exact RunResult.noConfusion h
  | some firstRow =>
    try rw [hget] at h
    try rw [hget]
    dsimp only at h ⊢
    by_cases hh : (testSlicesEqual firstRow Kraken.expectedFirstRow).1 = true
    · rw [if_pos hh] at h ⊢
      cases hget2 : (transactions.get? 1).bind (fun r => r.get? 2) with
      | none =>
        try rw [hget2] at h
        exact RunResult.noConfusion h
      | some v =>
        try rw [hget2] at h
        try rw [hget2]
        dsimp only at h ⊢
        cases hrun : Kraken.runRows ords price uk (transactions.drop 1) 2
            Kraken.St.init with
        | fatal d =>
          try rw [hrun] at h
          exact RunResult.noConfusion h
        | panic =>
          try rw [hrun] at h
          exact RunResult.noConfusion h
        | ok s =>
          try rw [hrun] at h
          dsimp only at h
          obtain ⟨t1, ht1, hc1⟩ := runRows_core ords ordsB price uk
            (transactions.drop 1) 2 Kraken.St.init Kraken.St.init rfl s hrun
          rw [ht1]
          dsimp only
          have hout : t1.output = s.output := congrArg (fun q => q.1) hc1
          rw [hout]
          have hfin : Kraken.finalizeWith ord2B ord3B s.output =
              Kraken.finalizeWith ord2 ord3 s.output :=
            (finalizeWith_perm ord2 ord2B ord3 ord3B h2 h2B h3 h3B s.output).symm
          rw [hfin]
          cases h
          exact ⟨_, rfl⟩
    · rw [if_neg hh] at h
      exact RunResult.noConfusion h

/-- C9, witness: the determinism theorem applied to a concrete run — a
staking-suffixed deposit followed by its staking row — comparing the
stored map order against the fully reversed map orders. -/
theorem claim_C9_witness :
    ∃ diags2, Kraken.convertTransactionsWith (fun _ l => l.reverse)
      (fun l => l.reverse) (fun l => l.reverse) (fun _ _ => some "9") (fun t => t)
      [Kraken.expectedFirstRow,
       ["", "R1", "T1", "deposit", "", "currency", "ABC.S", "5", "0", "10"],
       ["tx2", "R2", "T2", "staking", "", "currency", "ABC.S", "5", "0", "15"]] =
      RunResult.ok
        ([["", ""], ["", ""], ["ABC", "Data for a fixed currency"],
          ["", "Kraken", "T2", "T2", "5", "9", "", "", "", "", "", "", "", "STAKING"],
          ["", ""]], diags2) :=
  claim_C9 (fun _ l => l) (fun _ l => l.reverse) (fun l => l) (fun l => l.reverse)
    (fun l => l) (fun l => l.reverse) (fun _ _ => some "9") (fun t => t)
    [Kraken.expectedFirstRow,
     ["", "R1", "T1", "deposit", "", "currency", "ABC.S", "5", "0", "10"],
     ["tx2", "R2", "T2", "staking", "", "currency", "ABC.S", "5", "0", "15"]]
    (fun l => List.Perm.refl l) (fun l => l.reverse_perm)
    (fun l => List.Perm.refl l) (fun l => l.reverse_perm)
    [["", ""], ["", ""], ["ABC", "Data for a fixed currency"],
     ["", "Kraken", "T2", "T2", "5", "9", "", "", "", "", "", "", "", "STAKING"],
     ["", ""]] []
    (by decide)

end DataProc
